import Mathlib

/-!
Shallow embedding of the metadata-resolution core of
`src/lib/plugin/visitors/model-class.visitor.ts` (the `ModelClassVisitor`),
together with theorems settling the frozen claims about it.

The visitor walks the members of a class declaration and, for each eligible
property declaration, synthesizes an object-literal expression of metadata
key/value assignments (`createDecoratorObjectLiteralExpr`), which is recorded
in a per-class metadata map (`addClassMetadata`).  External collaborators
(the TypeScript type checker and the helpers of `../utils/ast-utils` and
`../utils/plugin-utils`, which are part of the repository but not under
`src/`) are modelled as an injected oracle interface (`Checker`), following
the spec's §6 "External Interfaces".
-/

set_option maxHeartbeats 1000000

namespace SwaggerPlugin

/-- Embedded fragment of TypeScript expressions, as produced by the node
factory calls in the visitor (`createPropertyAssignment` values).  `arrow`
is a zero-argument arrow function (the parenthesization of its body in the
source is syntactic noise and is not represented); `asExpr` is an
`x as T` type-assertion wrapper (`ts.isAsExpression`); `raw` stands for an
arbitrary user-written expression (explicit annotation values, initializer
expressions, decorator arguments) that the visitor only moves around. -/
inductive Expr : Type where
  | ident (name : String)
  | boolLit (b : Bool)
  | strLit (s : String)
  | numLit (n : Int)
  | arrayLit (elems : List Expr)
  | arrow (body : Expr)
  | objectLit (props : List (String × Expr))
  | asExpr (expression : Expr)
  | raw (id : Nat)

/-- A decorator attached to a property declaration: its name and argument
expressions. -/
structure Decorator : Type where
  name : String
  args : List Expr

/-- A property name node: its source text (`getText()`) and whether its kind
is `ts.SyntaxKind.ComputedPropertyName`. -/
structure PropName : Type where
  text : String
  isComputed : Bool

mutual

/-- Embedded type nodes (`ts.TypeNode`), covering the shapes the visitor
distinguishes: inline type literals (`ts.isTypeLiteralNode`), union type
nodes (`ts.isUnionTypeNode`), the literal `null` keyword node, and all other
type nodes (`other`), identified by an opaque id and their source text. -/
inductive TypeNode : Type where
  | typeLiteral (members : List PropertyNode) (text : String)
  | unionType (types : List TypeNode) (text : String)
  | nullKeyword
  | other (id : Nat) (text : String)

/-- The shared shape of `ts.PropertyDeclaration` and `ts.PropertySignature`
that `createDecoratorObjectLiteralExpr` and the per-key resolvers consume:
name, optional `?` presence marker, optional declared type, optional
initializer, decorators. -/
inductive PropertyNode : Type where
  | mk (name : PropName) (questionToken : Bool) (type : Option TypeNode)
      (initializer : Option Expr) (decorators : List Decorator)

end

/-- Name accessor for `PropertyNode`. -/
def PropertyNode.name : PropertyNode → PropName
  | .mk n _ _ _ _ => n

/-- Presence-marker accessor for `PropertyNode` (`node.questionToken`). -/
def PropertyNode.questionToken : PropertyNode → Bool
  | .mk _ q _ _ _ => q

/-- Declared-type accessor for `PropertyNode` (`node.type`). -/
def PropertyNode.type : PropertyNode → Option TypeNode
  | .mk _ _ t _ _ => t

/-- Initializer accessor for `PropertyNode` (`node.initializer`). -/
def PropertyNode.initializer : PropertyNode → Option Expr
  | .mk _ _ _ i _ => i

/-- Decorator-list accessor for `PropertyNode` (`node.decorators`). -/
def PropertyNode.decorators : PropertyNode → List Decorator
  | .mk _ _ _ _ d => d

/-- Source text of a type node (`node.getText()`). -/
def TypeNode.getText : TypeNode → String
  | .typeLiteral _ t => t
  | .unionType _ t => t
  | .nullKeyword => "null"
  | .other _ t => t

/-- The null-likeness test used on union members (model-class.visitor.ts,
lines 256-260): `type.kind === ts.SyntaxKind.NullKeyword ||
(ts.SyntaxKind.LiteralType && type.getText() === 'null')`.  Since
`ts.SyntaxKind.LiteralType` is a truthy numeric constant, the second
disjunct reduces to the text comparison. -/
def isNullLikeTypeNode (t : TypeNode) : Bool :=
  (match t with
   | .nullKeyword => true
   | _ => false) || t.getText == "null"

/-- The recognized plugin options (`PluginOptions` of `../merge-options`,
restricted to the fields the visitor reads; the defaults model an empty
options object `{}`, whose `dtoKeyOfComment` is irrelevant because the
documentation enricher is guarded by `introspectComments`). -/
structure PluginOptions : Type where
  classValidatorShim : Bool := false
  introspectComments : Bool := false
  dtoKeyOfComment : String := "description"

/-- A runtime JavaScript value handed back by the documentation extractor as
an example: a scalar or a nested array (spec §3 `LiteralValue`). -/
inductive JsValue : Type where
  | str (s : String)
  | num (n : Int)
  | bool (b : Bool)
  | arr (elems : List JsValue)

/-- Modelled from the spec: `createLiteralFromAnyValue` /
`createPrimitiveLiteral` (model-class.visitor.ts lines 522-528 plus the
`createPrimitiveLiteral` helper of `../utils/ast-utils`, which is not under
`src/`): an array becomes an array-literal expression of the recursively
converted items, a scalar becomes the corresponding literal expression. -/
def createLiteralFromAnyValue : JsValue → Expr
  | .arr elems => .arrayLit (createLiteralListFromValues elems)
  | .str s => .strLit s
  | .num n => .numLit n
  | .bool b => .boolLit b
where
  /-- Recursive conversion of a list of values, elementwise. -/
  createLiteralListFromValues : List JsValue → List Expr
  | [] => []
  | v :: vs => createLiteralFromAnyValue v :: createLiteralListFromValues vs

/-- The external collaborators consumed by the visitor, modelled from the
spec (§6 "External Interfaces"): the TypeScript type checker plus the
helpers of `../utils/plugin-utils` and `../utils/ast-utils` that are part of
this repository but not under `src/`.  `Ty` is the opaque type-handle
universe (`ts.Type`).

- `getTypeAtLocationNode` / `getTypeAtLocationProp`:
  `typeChecker.getTypeAtLocation` applied to a (possibly absent) type node,
  respectively to a property node;
- `getTypeReferenceAsString`: the canonical-reference query (spec:
  `canonicalReference(TypeHandle) -> string?`);
- `isAutoGeneratedTypeUnion` / `unionTypes`: the auto-generated-union test
  and the constituent list of a union type;
- `extractTypeArgumentIfArray`: the array-unwrapping query (spec:
  `unwrapArray(TypeHandle) -> (elementType, bool)?`);
- `isEnum` / `isEnumMemberSymbol`: enum classification of a type handle and
  the `type.symbol.flags === ts.SymbolFlags.EnumMember` test;
- `isAutoGeneratedEnumUnion`: the second detection pass treating a type as
  an auto-generated union of enum members, yielding the found type;
- `getText`: canonical text of a type handle;
- `replaceImportPath`: the import-path normalizer (spec:
  `normalize(referenceName, hostFileIdentifier) -> string`);
- `getMainCommentAndExamples`: the documentation extractor (spec:
  `extract(property, sourceContext, oracle) -> (description, examples)`). -/
structure Checker (Ty : Type) : Type where
  getTypeAtLocationNode : Option TypeNode → Option Ty
  getTypeAtLocationProp : PropertyNode → Option Ty
  getTypeReferenceAsString : Ty → Option String
  isAutoGeneratedTypeUnion : Ty → Bool
  unionTypes : Ty → List Ty
  extractTypeArgumentIfArray : Ty → Option (Ty × Bool)
  isEnum : Ty → Bool
  isEnumMemberSymbol : Ty → Bool
  isAutoGeneratedEnumUnion : Ty → Option Ty
  getText : Ty → String
  replaceImportPath : String → String → String
  getMainCommentAndExamples : PropertyNode → String × List JsValue

/-- Modelled from the spec: `hasPropertyKey(key, existingProperties)` of
`../utils/plugin-utils` (not under `src/`) — whether a key is already
present among the given property assignments ("any key present here is
never overwritten"). -/
def hasPropertyKey (key : String) (properties : List (String × Expr)) : Bool :=
  properties.any (fun p => p.1 == key)

/-- Modelled from the spec: `getDecoratorOrUndefinedByNames` of
`../utils/plugin-utils` (not under `src/`) — the Annotation Reader's
`firstMatching(names, annotations)`: the first decorator whose name is among
`names`, if any. -/
def getDecoratorOrUndefinedByNames (names : List String)
    (decorators : List Decorator) : Option Decorator :=
  decorators.find? (fun d => names.contains d.name)

/-- `createDefaultPropertyAssignment` (model-class.visitor.ts lines
373-390): skip when `default` is already present or there is no
initializer; unwrap one `as`-assertion wrapper; contribute the initializer
verbatim under the key `default`. -/
def createDefaultPropertyAssignment (node : PropertyNode)
    (existingProperties : List (String × Expr)) : Option (String × Expr) :=
  if hasPropertyKey "default" existingProperties then none
  else
    match node.initializer with
    | none => none
    | some i =>
      match i with
      | .asExpr e => some ("default", e)
      | i => some ("default", i)

/-- `addPropertyByValidationDecorator` (model-class.visitor.ts lines
431-449): find the first decorator with the given name; if it has at least
one argument, contribute that first argument under `propertyKey`.  The
source pushes onto a shared array; returning the contributed assignments
and concatenating is equivalent. -/
def addPropertyByValidationDecorator (decoratorName : String)
    (propertyKey : String) (decorators : List Decorator) :
    List (String × Expr) :=
  match getDecoratorOrUndefinedByNames [decoratorName] decorators with
  | none => []
  | some d =>
    match d.args.head? with
    | none => []
    | some argument => [(propertyKey, argument)]

/-- `createValidationPropertyAssignments` (model-class.visitor.ts lines
392-429): the four fixed decorator-to-key pairs, each independent. -/
def createValidationPropertyAssignments (node : PropertyNode) :
    List (String × Expr) :=
  addPropertyByValidationDecorator "Min" "minimum" node.decorators ++
  addPropertyByValidationDecorator "Max" "maximum" node.decorators ++
  addPropertyByValidationDecorator "MinLength" "minLength" node.decorators ++
  addPropertyByValidationDecorator "MaxLength" "maxLength" node.decorators

/-- `createDescriptionAndExamplePropertyAssigments` (model-class.visitor.ts
lines 472-520).  `sourceFilePresent` models whether the optional
`sourceFile` argument was passed.  JavaScript truthiness of the extracted
comment string is the non-emptiness test. -/
def createDescriptionAndExamplePropertyAssigments {Ty : Type}
    (checker : Checker Ty) (node : PropertyNode)
    (existingProperties : List (String × Expr)) (options : PluginOptions)
    (sourceFilePresent : Bool) : List (String × Expr) :=
  if !options.introspectComments || !sourceFilePresent then []
  else
    let commentsAndExamples := checker.getMainCommentAndExamples node
    let comments := commentsAndExamples.1
    let examples := commentsAndExamples.2
    let keyOfComment := options.dtoKeyOfComment
    let descriptionPart :=
      if !hasPropertyKey keyOfComment existingProperties && comments != "" then
        [(keyOfComment, Expr.strLit comments)]
      else []
    let hasExampleOrExamplesKey :=
      hasPropertyKey "example" existingProperties ||
      hasPropertyKey "examples" existingProperties
    let examplePart :=
      if hasExampleOrExamplesKey then []
      else
        match examples with
        | [] => []
        | [e] => [("example", createLiteralFromAnyValue e)]
        | es => [("examples", createLiteralFromAnyValue (.arr es))]
    descriptionPart ++ examplePart

/-- The tail of `createEnumPropertyAssignment` (model-class.visitor.ts lines
357-370): resolve the enum's text, normalize it, and contribute `enum`
plus `isArray` when the array flag is set (the source writes the literal
identifier `true` for `isArray`). -/
def finishEnumAssignment {Ty : Type} (checker : Checker Ty)
    (hostFilename : String) (t : Ty) (isArrayType : Bool) :
    List (String × Expr) :=
  let enumRef := checker.replaceImportPath (checker.getText t) hostFilename
  if isArrayType then
    [("enum", Expr.ident enumRef), ("isArray", Expr.ident "true")]
  else
    [("enum", Expr.ident enumRef)]

/-- The part of `createEnumPropertyAssignment` that runs after the working
type has been fixed (model-class.visitor.ts lines 334-370): array
unwrapping, enum/enum-member detection, the second auto-generated-enum-union
pass with its re-unwrapping, and the final contribution. -/
def createEnumPropertyAssignmentCore {Ty : Type} (checker : Checker Ty)
    (hostFilename : String) (t0 : Ty) : List (String × Expr) :=
  match checker.extractTypeArgumentIfArray t0 with
  | none => []
  | some (t, isArrayType) =>
    let isEnumMember := checker.isEnumMemberSymbol t
    if !checker.isEnum t || isEnumMember then
      match (if !isEnumMember then checker.isAutoGeneratedEnumUnion t else some t) with
      | none => []
      | some t2 =>
        match checker.extractTypeArgumentIfArray t2 with
        | none => []
        | some (t3, isArrayType2) =>
          finishEnumAssignment checker hostFilename t3 isArrayType2
    else
      finishEnumAssignment checker hostFilename t isArrayType

/-- `createEnumPropertyAssignment` (model-class.visitor.ts lines 315-371):
skip when `enum` is already present or the checker yields no type; when the
type is an auto-generated union, replace it with the union's last
constituent; then run the unwrap/detection pipeline.  A union reported with
an empty constituent list is degenerate (impossible for a real TypeScript
union type, which always has at least two members) and is modelled as
contributing nothing. -/
def createEnumPropertyAssignment {Ty : Type} (checker : Checker Ty)
    (node : PropertyNode) (existingProperties : List (String × Expr))
    (hostFilename : String) : List (String × Expr) :=
  if hasPropertyKey "enum" existingProperties then []
  else
    match checker.getTypeAtLocationProp node with
    | none => []
    | some ty =>
      match (if checker.isAutoGeneratedTypeUnion ty then
              (checker.unionTypes ty).getLast?
             else some ty) with
      | none => []
      | some t0 => createEnumPropertyAssignmentCore checker hostFilename t0

/-- The fall-through tail of `createTypePropertyAssignments`
(model-class.visitor.ts lines 291-313): query the checker for the type at
the (possibly absent) node, ask for a canonical reference string, normalize
it, and contribute `type` as a thunked identifier. -/
def fallbackTypeReference {Ty : Type} (checker : Checker Ty)
    (node : Option TypeNode) (hostFilename : String) :
    List (String × Expr) :=
  match checker.getTypeAtLocationNode node with
  | none => []
  | some ty =>
    match checker.getTypeReferenceAsString ty with
    | none => []
    | some typeReference =>
      [("type", Expr.arrow (Expr.ident
        (checker.replaceImportPath typeReference hostFilename)))]

/-- The remaining members of a union after removing the null-like variant
(model-class.visitor.ts lines 256-264): `find` returns the first null-like
member, and the `!==` filter removes exactly that one node (nodes are
distinct objects by reference), which is index-based removal of the first
match; when no member is null-like, all members remain. -/
def remainingUnionTypes (types : List TypeNode) : List TypeNode :=
  match types.findIdx? isNullLikeTypeNode with
  | some i => types.eraseIdx i
  | none => types

mutual

/-- `createDecoratorObjectLiteralExpr` (model-class.visitor.ts lines
155-203): the assembled (already compact/flattened) assignment list of the
metadata object literal for one property: the explicit `existingProperties`
seeded first, then `required` (unless already present), the type resolver's
contributions, the documentation enricher's, the default extractor's, the
enum resolver's, and — only under `classValidatorShim` — the validation
bound extractor's, appended last.  The returned list is the content of the
produced `ObjectLiteralExpression`. -/
def createDecoratorObjectLiteralExpr {Ty : Type} (checker : Checker Ty)
    (node : PropertyNode) (existingProperties : List (String × Expr))
    (options : PluginOptions) (hostFilename : String)
    (sourceFilePresent : Bool) : List (String × Expr) :=
  let isRequired := !node.questionToken
  let properties :=
    existingProperties ++
    (if hasPropertyKey "required" existingProperties then []
     else [("required", Expr.boolLit isRequired)]) ++
    createTypePropertyAssignments checker node.type existingProperties
      hostFilename ++
    createDescriptionAndExamplePropertyAssigments checker node
      existingProperties options sourceFilePresent ++
    (createDefaultPropertyAssignment node existingProperties).toList ++
    createEnumPropertyAssignment checker node existingProperties hostFilename
  if options.classValidatorShim then
    properties ++ createValidationPropertyAssignments node
  else properties
termination_by sizeOf node
decreasing_by
  all_goals simp_wf
  cases node with
  | mk n q t i d => simp only [PropertyNode.type]; simp; omega

/-- `createTypePropertyAssignments` (model-class.visitor.ts lines 211-313):
skip when `type` is already present; an inline type literal becomes a
thunked nested object literal whose members are resolved by the full
per-property pipeline with the outer `existingProperties`, an empty options
object and no source file; a union node removes its first null-like member
and, when exactly one member remains, recurses on it and adds
`nullable = true` when a null-like member was found; every other shape —
including a union with a remaining-member count other than one — falls
through to the generic checker reference lookup on the original node. -/
def createTypePropertyAssignments {Ty : Type} (checker : Checker Ty)
    (node : Option TypeNode) (existingProperties : List (String × Expr))
    (hostFilename : String) : List (String × Expr) :=
  if hasPropertyKey "type" existingProperties then []
  else
    match node with
    | some (TypeNode.typeLiteral members _text) =>
      [("type", Expr.arrow (Expr.objectLit
        (mapTypeLiteralMembers checker members existingProperties
          hostFilename)))]
    | some (TypeNode.unionType types text) =>
      match hrem : remainingUnionTypes types with
      | [r] =>
        createTypePropertyAssignments checker (some r) existingProperties
          hostFilename ++
        (if (types.findIdx? isNullLikeTypeNode).isSome then
          [("nullable", Expr.boolLit true)]
         else [])
      | _ =>
        fallbackTypeReference checker (some (TypeNode.unionType types text))
          hostFilename
    | _ => fallbackTypeReference checker node hostFilename
termination_by sizeOf node
decreasing_by
  all_goals simp_wf
  · first
    | omega
    | (simp; omega)
  · have hmem : r ∈ remainingUnionTypes types := by rw [hrem]; simp
    have hsub : List.Sublist (remainingUnionTypes types) types := by
      unfold remainingUnionTypes
      cases types.findIdx? isNullLikeTypeNode with
      | none => simp
      | some i => exact List.eraseIdx_sublist types i
    have hmem2 : r ∈ types := hsub.mem hmem
    have h2 : sizeOf r < sizeOf types := List.sizeOf_lt_of_mem hmem2
    first
    | omega
    | (simp; omega)

/-- The member mapping of the type-literal branch (model-class.visitor.ts
lines 224-239): each member's name paired with the object literal obtained
by the full pipeline on that member, with the outer `existingProperties`,
an empty options object `{}` and no source file argument. -/
def mapTypeLiteralMembers {Ty : Type} (checker : Checker Ty)
    (members : List PropertyNode)
    (existingProperties : List (String × Expr)) (hostFilename : String) :
    List (String × Expr) :=
  match members with
  | [] => []
  | m :: rest =>
    (m.name.text, Expr.objectLit
      (createDecoratorObjectLiteralExpr checker m existingProperties {}
        hostFilename false)) ::
    mapTypeLiteralMembers checker rest existingProperties hostFilename
termination_by sizeOf members
decreasing_by
  all_goals simp_wf
  all_goals omega

end

/-- The per-class metadata map (`type ClassMetadata = Record<string,
ts.ObjectLiteralExpression>`), modelled as an association list with
JavaScript object-assignment semantics (`recordInsert`): property name to
the assignment list of its metadata object literal. -/
abbrev ClassMetadata : Type := List (String × List (String × Expr))

/-- JavaScript object assignment `obj[k] = v`: an existing key keeps its
position and gets the new value, a new key is appended. -/
def recordInsert {α : Type} (m : List (String × α)) (k : String) (v : α) :
    List (String × α) :=
  if m.any (fun p => p.1 == k) then
    m.map (fun p => if p.1 == k then (k, v) else p)
  else m ++ [(k, v)]

/-- Evaluation of a (possibly duplicate-keyed) object literal at a key,
with JavaScript semantics: the LAST assignment for a key wins. -/
def recordValue (assignments : List (String × Expr)) (k : String) :
    Option Expr :=
  (assignments.reverse.find? (fun a => a.1 == k)).map (fun a => a.2)

/-- A `ts.PropertyDeclaration` as seen by the class scanner: the shared
property shape plus the scanner-level facts — whether the declaration has a
`static` modifier, and the host class's name text
(`node.parent.name && node.parent.name.getText()`, absent when the class
declaration has no name node). -/
structure PropertyDeclaration : Type where
  core : PropertyNode
  isStatic : Bool
  hostClassName : Option String

/-- `addClassMetadata` (model-class.visitor.ts lines 451-470): discard the
computed object literal when the host class has no resolvable name (a
missing name node or empty text — both falsy in the source's
`!className` test), or when the property name is falsy or a computed
property name; otherwise record it in the class metadata map under the
property's name. -/
def addClassMetadata (node : PropertyDeclaration)
    (objectLiteral : List (String × Expr)) (metadata : ClassMetadata) :
    ClassMetadata :=
  let className := (node.hostClassName).getD ""
  if className == "" then metadata
  else
    let propertyName := node.core.name.text
    if propertyName == "" || node.core.name.isComputed then metadata
    else recordInsert metadata propertyName objectLiteral

/-- `inspectPropertyDeclaration` (model-class.visitor.ts lines 129-153), as
a state transformer that can fail: resolution of the property's object
literal (`createDecoratorObjectLiteralExpr`) is abstracted by
`resolveObjectLiteral`, because in the source every possible exception
arises inside external collaborator calls made during that resolution; the
metadata map is mutated only by the single `addClassMetadata` assignment
performed AFTER resolution has completed, so a failing resolution leaves
the map untouched (no possibility of a partially written record). -/
def inspectPropertyDeclarationE {ε : Type}
    (resolveObjectLiteral : PropertyNode → Except ε (List (String × Expr)))
    (node : PropertyDeclaration) (metadata : ClassMetadata) :
    Except ε ClassMetadata :=
  match resolveObjectLiteral node.core with
  | .error e => .error e
  | .ok objectLiteral => .ok (addClassMetadata node objectLiteral metadata)

/-- The property visitor produced by `propertyNodeVisitorFactory`
(model-class.visitor.ts lines 37-72), restricted to property-declaration
nodes (all other member nodes are returned unchanged and never touch the
metadata): skip properties marked with the `ApiHideProperty` decorator,
skip static properties, and run `inspectPropertyDeclaration` inside a
`try`/`catch` whose `catch` returns the node with the metadata map exactly
as it was. -/
def propertyNodeVisitor {ε : Type}
    (resolveObjectLiteral : PropertyNode → Except ε (List (String × Expr)))
    (metadata : ClassMetadata) (node : PropertyDeclaration) :
    ClassMetadata :=
  if (getDecoratorOrUndefinedByNames ["ApiHideProperty"]
        node.core.decorators).isSome then metadata
  else if node.isStatic then metadata
  else
    match inspectPropertyDeclarationE resolveObjectLiteral node metadata with
    | .error _ => metadata
    | .ok metadata2 => metadata2

/-- The class scan (`visitClassNode`, model-class.visitor.ts lines 74-89):
a fresh empty metadata map, then each property declaration of the class
visited in order with `propertyNodeVisitorFactory(metadata)`. -/
def visitClassProperties {ε : Type}
    (resolveObjectLiteral : PropertyNode → Except ε (List (String × Expr)))
    (declarations : List PropertyDeclaration) : ClassMetadata :=
  declarations.foldl (propertyNodeVisitor resolveObjectLiteral) []

/-- The non-throwing instantiation of the per-property resolution: a run in
which no external collaborator call raises. -/
def resolvePure {Ty : Type} (checker : Checker Ty) (options : PluginOptions)
    (hostFilename : String) (node : PropertyNode) :
    Except Unit (List (String × Expr)) :=
  .ok (createDecoratorObjectLiteralExpr checker node [] options hostFilename
    true)

/-- A checker whose every query misses: all oracle lookups yield nothing,
no type is classified as anything, and the documentation extractor finds
nothing.  Import-path normalization is the identity. -/
def trivialChecker : Checker Nat where
  getTypeAtLocationNode := fun _ => none
  getTypeAtLocationProp := fun _ => none
  getTypeReferenceAsString := fun _ => none
  isAutoGeneratedTypeUnion := fun _ => false
  unionTypes := fun _ => []
  extractTypeArgumentIfArray := fun _ => none
  isEnum := fun _ => false
  isEnumMemberSymbol := fun _ => false
  isAutoGeneratedEnumUnion := fun _ => none
  getText := fun _ => ""
  replaceImportPath := fun s _ => s
  getMainCommentAndExamples := fun _ => ("", [])

/-- A property node with the given name and no marker, type, initializer or
decorators. -/
def namedProp (s : String) : PropertyNode :=
  .mk ⟨s, false⟩ false none none []

/-- A property declaration `age: ...` carrying a `@Min(5)` decorator and no
other information, used to exercise the validation-bound extractor. -/
def minDecoratedProp : PropertyNode :=
  .mk ⟨"age", false⟩ false none none [⟨"Min", [Expr.numLit 5]⟩]

/-- A checker for union-typed scenarios: the handle of the whole union node
(for example `boolean | undefined`, for which the repository's
`getTypeReferenceAsString` yields `Boolean` via its optional-boolean text
test) resolves to the reference `Boolean`; the handle of a plain reference
node `T` resolves to the reference `T`. -/
def unionChecker : Checker Nat where
  getTypeAtLocationNode := fun n =>
    match n with
    | some (.unionType _ _) => some 7
    | some (.other 5 _) => some 9
    | _ => none
  getTypeAtLocationProp := fun _ => none
  getTypeReferenceAsString := fun t =>
    if t == 7 then some "Boolean" else if t == 9 then some "T" else none
  isAutoGeneratedTypeUnion := fun _ => false
  unionTypes := fun _ => []
  extractTypeArgumentIfArray := fun _ => none
  isEnum := fun _ => false
  isEnumMemberSymbol := fun _ => false
  isAutoGeneratedEnumUnion := fun _ => none
  getText := fun _ => ""
  replaceImportPath := fun s _ => s
  getMainCommentAndExamples := fun _ => ("", [])

/-- A checker that models an enum `Role` and array types over it, in terms
of opaque handles: handle 0 is `Role[]` (array of handle 1), handle 1 is
the enum `Role`, handle 2 is an auto-generated union whose last constituent
is handle 0, handle 3 is an unrelated literal member.  A property named
`roles` has type `Role[]`, a property named `tags` has the auto-generated
union type, a property named `role` has the plain enum type. -/
def enumChecker : Checker Nat where
  getTypeAtLocationNode := fun _ => none
  getTypeAtLocationProp := fun p =>
    if p.name.text == "roles" then some 0
    else if p.name.text == "tags" then some 2
    else if p.name.text == "role" then some 1
    else none
  getTypeReferenceAsString := fun _ => none
  isAutoGeneratedTypeUnion := fun t => t == 2
  unionTypes := fun t => if t == 2 then [3, 0] else []
  extractTypeArgumentIfArray := fun t =>
    if t == 0 then some (1, true)
    else if t == 1 then some (1, false)
    else if t == 3 then some (3, false)
    else none
  isEnum := fun t => t == 1
  isEnumMemberSymbol := fun _ => false
  isAutoGeneratedEnumUnion := fun _ => none
  getText := fun t => if t == 1 then "Role" else ""
  replaceImportPath := fun s _ => s
  getMainCommentAndExamples := fun _ => ("", [])

/-- A checker whose documentation extractor finds, for a property named
`a`, a description and two example values, and for a property named `b`,
no description and one example value. -/
def docChecker : Checker Nat where
  getTypeAtLocationNode := fun _ => none
  getTypeAtLocationProp := fun _ => none
  getTypeReferenceAsString := fun _ => none
  isAutoGeneratedTypeUnion := fun _ => false
  unionTypes := fun _ => []
  extractTypeArgumentIfArray := fun _ => none
  isEnum := fun _ => false
  isEnumMemberSymbol := fun _ => false
  isAutoGeneratedEnumUnion := fun _ => none
  getText := fun _ => ""
  replaceImportPath := fun s _ => s
  getMainCommentAndExamples := fun p =>
    if p.name.text == "a" then ("the a", [.num 1, .num 2])
    else if p.name.text == "b" then ("", [.str "x"])
    else ("", [])

/-- A property declaration of a class named `Cat`. -/
def catDecl (s : String) : PropertyDeclaration :=
  ⟨namedProp s, false, some "Cat"⟩

/-- A property declaration of a class without a resolvable name. -/
def unnamedClassDecl (s : String) : PropertyDeclaration :=
  ⟨namedProp s, false, none⟩

/-! Step and shape lemmas about the embedded resolvers, shared by the claim
theorems below. -/

/-- When `type` is already among the existing keys, the type resolver
contributes nothing at all (neither `type` nor `nullable`). -/
theorem typeAssignments_of_hasKey {Ty : Type} (checker : Checker Ty)
    (node : Option TypeNode) (existing : List (String × Expr)) (host : String)
    (h : hasPropertyKey "type" existing = true) :
    createTypePropertyAssignments checker node existing host = [] := by
  unfold createTypePropertyAssignments
  simp [h]

/-- Type-literal branch of the type resolver: a single thunked `type`
assignment wrapping the nested member records. -/
theorem typeAssignments_literal {Ty : Type} (checker : Checker Ty)
    (members : List PropertyNode) (txt : String)
    (existing : List (String × Expr)) (host : String)
    (h : hasPropertyKey "type" existing = false) :
    createTypePropertyAssignments checker (some (.typeLiteral members txt))
      existing host =
    [("type", Expr.arrow (Expr.objectLit
      (mapTypeLiteralMembers checker members existing host)))] := by
  unfold createTypePropertyAssignments
  simp [h]

/-- Union branch with exactly one remaining member: recurse on it and add
`nullable = true` when a null-like member was found. -/
theorem typeAssignments_union_single {Ty : Type} (checker : Checker Ty)
    (types : List TypeNode) (r : TypeNode) (txt : String)
    (existing : List (String × Expr)) (host : String)
    (h : hasPropertyKey "type" existing = false)
    (hrem : remainingUnionTypes types = [r]) :
    createTypePropertyAssignments checker (some (.unionType types txt))
      existing host =
    createTypePropertyAssignments checker (some r) existing host ++
    (if (types.findIdx? isNullLikeTypeNode).isSome then
      [("nullable", Expr.boolLit true)]
     else []) := by
  conv_lhs => rw [createTypePropertyAssignments.eq_def]
  simp only [h, Bool.false_eq_true, ite_false]
  split
  · rename_i r2 heq
    rw [hrem] at heq
    injection heq with h1 _
    rw [h1]
  · rename_i hx
    exact absurd hrem (hx r)

/-- Union branch with a remaining-member count other than one: the source
falls through to the generic checker reference lookup on the whole union
node. -/
theorem typeAssignments_union_fallthrough {Ty : Type} (checker : Checker Ty)
    (types : List TypeNode) (txt : String)
    (existing : List (String × Expr)) (host : String)
    (h : hasPropertyKey "type" existing = false)
    (hlen : (remainingUnionTypes types).length ≠ 1) :
    createTypePropertyAssignments checker (some (.unionType types txt))
      existing host =
    fallbackTypeReference checker (some (TypeNode.unionType types txt))
      host := by
  conv_lhs => rw [createTypePropertyAssignments.eq_def]
  simp only [h, Bool.false_eq_true, ite_false]
  split
  · rename_i r2 heq
    rw [heq] at hlen
    simp at hlen
  · rfl

/-- Non-literal, non-union type nodes go straight to the generic checker
reference lookup. -/
theorem typeAssignments_other {Ty : Type} (checker : Checker Ty)
    (i : Nat) (s : String) (existing : List (String × Expr)) (host : String)
    (h : hasPropertyKey "type" existing = false) :
    createTypePropertyAssignments checker (some (.other i s)) existing host =
    fallbackTypeReference checker (some (.other i s)) host := by
  unfold createTypePropertyAssignments
  simp [h]

/-- An absent type node goes straight to the generic checker reference
lookup (applied to the absent node). -/
theorem typeAssignments_none {Ty : Type} (checker : Checker Ty)
    (existing : List (String × Expr)) (host : String)
    (h : hasPropertyKey "type" existing = false) :
    createTypePropertyAssignments checker none existing host =
    fallbackTypeReference checker none host := by
  unfold createTypePropertyAssignments
  simp [h]

/-- The fall-through reference lookup contributes at most a `type` key. -/
theorem fallbackTypeReference_key_shape {Ty : Type} (checker : Checker Ty)
    (node : Option TypeNode) (host : String) :
    ∀ a ∈ fallbackTypeReference checker node host, a.1 = "type" := by
  intro a ha
  unfold fallbackTypeReference at ha
  cases hty : checker.getTypeAtLocationNode node with
  | none => simp [hty] at ha
  | some ty =>
    simp only [hty] at ha
    cases href : checker.getTypeReferenceAsString ty with
    | none => simp [href] at ha
    | some ref =>
      simp [href] at ha
      simp [ha]

/-- The nested-member mapping is an elementwise map. -/
theorem mapTypeLiteralMembers_eq_map {Ty : Type} (checker : Checker Ty)
    (members : List PropertyNode) (existing : List (String × Expr))
    (host : String) :
    mapTypeLiteralMembers checker members existing host =
    members.map (fun m => (m.name.text, Expr.objectLit
      (createDecoratorObjectLiteralExpr checker m existing {} host
        false))) := by
  induction members with
  | nil => unfold mapTypeLiteralMembers; rfl
  | cons m rest ih =>
    unfold mapTypeLiteralMembers
    rw [ih]
    rfl

/-- Step lemma for the `null` keyword node: it goes to the generic checker
reference lookup. -/
theorem typeAssignments_nullKeyword {Ty : Type} (checker : Checker Ty)
    (existing : List (String × Expr)) (host : String)
    (h : hasPropertyKey "type" existing = false) :
    createTypePropertyAssignments checker (some .nullKeyword) existing host =
    fallbackTypeReference checker (some .nullKeyword) host := by
  unfold createTypePropertyAssignments
  simp [h]

/-- The single member remaining in a union is structurally smaller than the
member list it came from. -/
theorem sizeOf_remaining_singleton_lt {types : List TypeNode} {r : TypeNode}
    (h : remainingUnionTypes types = [r]) : sizeOf r < sizeOf types := by
  have hmem : r ∈ remainingUnionTypes types := by rw [h]; simp
  have hsub : List.Sublist (remainingUnionTypes types) types := by
    unfold remainingUnionTypes
    cases types.findIdx? isNullLikeTypeNode with
    | none => simp
    | some i => exact List.eraseIdx_sublist types i
  exact List.sizeOf_lt_of_mem (hsub.mem hmem)

/-- Every assignment the type resolver contributes is keyed `type` or
`nullable`. -/
theorem typeAssignments_key_shape {Ty : Type} (checker : Checker Ty) :
    ∀ (node : Option TypeNode) (existing : List (String × Expr))
      (host : String) (a : String × Expr),
      a ∈ createTypePropertyAssignments checker node existing host →
      a.1 = "type" ∨ a.1 = "nullable" := by
  have main : ∀ (n : Nat) (node : Option TypeNode), sizeOf node ≤ n →
      ∀ (existing : List (String × Expr)) (host : String) (a : String × Expr),
      a ∈ createTypePropertyAssignments checker node existing host →
      a.1 = "type" ∨ a.1 = "nullable" := by
    intro n
    induction n with
    | zero =>
      intro node hle
      exfalso
      cases node <;> simp at hle
    | succ n ih =>
      intro node hle existing host a ha
      by_cases hkey : hasPropertyKey "type" existing = true
      · rw [typeAssignments_of_hasKey checker node existing host hkey] at ha
        simp at ha
      · replace hkey : hasPropertyKey "type" existing = false := by
          simpa using hkey
        cases node with
        | none =>
          rw [typeAssignments_none checker existing host hkey] at ha
          exact .inl (fallbackTypeReference_key_shape checker none host a ha)
        | some t =>
          cases t with
          | typeLiteral members txt =>
            rw [typeAssignments_literal checker members txt existing host
              hkey] at ha
            simp at ha
            exact .inl (by simp [ha])
          | unionType types txt =>
            by_cases hone : (remainingUnionTypes types).length = 1
            · obtain ⟨r, hr⟩ : ∃ r, remainingUnionTypes types = [r] := by
                cases hrt : remainingUnionTypes types with
                | nil => rw [hrt] at hone; simp at hone
                | cons x xs =>
                  cases xs with
                  | nil => exact ⟨x, rfl⟩
                  | cons y ys => rw [hrt] at hone; simp at hone
              rw [typeAssignments_union_single checker types r txt existing
                host hkey hr] at ha
              rcases List.mem_append.1 ha with h1 | h2
              · have hlt : sizeOf r < sizeOf types :=
                  sizeOf_remaining_singleton_lt hr
                have hsz : sizeOf (some r : Option TypeNode) ≤ n := by
                  simp at hle ⊢
                  have hpos : 0 ≤ sizeOf txt := Nat.zero_le _
                  omega
                exact ih (some r) hsz existing host a h1
              · by_cases hn : (types.findIdx? isNullLikeTypeNode).isSome
                · simp [hn] at h2
                  simp [h2]
                · simp [hn] at h2
            · rw [typeAssignments_union_fallthrough checker types txt existing
                host hkey hone] at ha
              exact .inl (fallbackTypeReference_key_shape checker
                (some (TypeNode.unionType types txt)) host a ha)
          | nullKeyword =>
            rw [typeAssignments_nullKeyword checker existing host hkey] at ha
            exact .inl (fallbackTypeReference_key_shape checker
              (some TypeNode.nullKeyword) host a ha)
          | other i s =>
            rw [typeAssignments_other checker i s existing host hkey] at ha
            exact .inl (fallbackTypeReference_key_shape checker
              (some (TypeNode.other i s)) host a ha)
  intro node existing host a ha
  exact main (sizeOf node) node (Nat.le_refl _) existing host a ha

/-- Normalized shape of the assembled metadata record: the explicit
assignments are seeded first, followed by the resolver contributions in
source order (required, type, documentation, default, enum, validation). -/
theorem objLit_parts {Ty : Type} (checker : Checker Ty) (node : PropertyNode)
    (existing : List (String × Expr)) (options : PluginOptions)
    (host : String) (sf : Bool) :
    createDecoratorObjectLiteralExpr checker node existing options host sf =
    existing ++
      ((if hasPropertyKey "required" existing then []
        else [("required", Expr.boolLit (!node.questionToken))]) ++
       createTypePropertyAssignments checker node.type existing host ++
       createDescriptionAndExamplePropertyAssigments checker node existing
         options sf ++
       (createDefaultPropertyAssignment node existing).toList ++
       createEnumPropertyAssignment checker node existing host ++
       (if options.classValidatorShim then
         createValidationPropertyAssignments node
        else [])) := by
  unfold createDecoratorObjectLiteralExpr
  cases h : options.classValidatorShim <;> simp [h, List.append_assoc]

/-- Every assignment the documentation enricher contributes has a key that
was not already present among the existing properties (the description key
and the example keys are each guarded by a presence check). -/
theorem docAssignments_guard {Ty : Type} (checker : Checker Ty)
    (node : PropertyNode) (existing : List (String × Expr))
    (options : PluginOptions) (sf : Bool) :
    ∀ a ∈ createDescriptionAndExamplePropertyAssigments checker node existing
      options sf, hasPropertyKey a.1 existing = false := by
  intro a ha
  unfold createDescriptionAndExamplePropertyAssigments at ha
  split at ha
  · simp at ha
  · rcases List.mem_append.1 ha with h1 | h2
    · split at h1
      · rename_i hc
        rw [Bool.and_eq_true] at hc
        simp at h1
        rw [h1]
        simpa using hc.1
      · simp at h1
    · split at h2
      · simp at h2
      · rename_i hex
        simp only [Bool.or_eq_true, not_or] at hex
        split at h2
        · simp at h2
        · simp at h2
          rw [h2]
          simpa using hex.1
        · simp at h2
          rw [h2]
          simpa using hex.2

/-- Every assignment the documentation enricher contributes is keyed by the
configured description key, `example`, or `examples`. -/
theorem docAssignments_key_shape {Ty : Type} (checker : Checker Ty)
    (node : PropertyNode) (existing : List (String × Expr))
    (options : PluginOptions) (sf : Bool) :
    ∀ a ∈ createDescriptionAndExamplePropertyAssigments checker node existing
      options sf,
      a.1 = options.dtoKeyOfComment ∨ a.1 = "example" ∨ a.1 = "examples" := by
  intro a ha
  unfold createDescriptionAndExamplePropertyAssigments at ha
  split at ha
  · simp at ha
  · rcases List.mem_append.1 ha with h1 | h2
    · split at h1
      · simp at h1
        simp [h1]
      · simp at h1
    · split at h2
      · simp at h2
      · split at h2
        · simp at h2
        · simp at h2
          simp [h2]
        · simp at h2
          simp [h2]

/-- The default extractor contributes nothing when `default` is already
present. -/
theorem defaultAssignment_of_hasKey (node : PropertyNode)
    (existing : List (String × Expr))
    (h : hasPropertyKey "default" existing = true) :
    createDefaultPropertyAssignment node existing = none := by
  unfold createDefaultPropertyAssignment
  simp [h]

/-- Every assignment the default extractor contributes is keyed
`default`. -/
theorem defaultAssignment_key_shape (node : PropertyNode)
    (existing : List (String × Expr)) :
    ∀ a ∈ (createDefaultPropertyAssignment node existing).toList,
      a.1 = "default" := by
  intro a ha
  unfold createDefaultPropertyAssignment at ha
  split at ha
  · simp at ha
  · cases hinit : node.initializer with
    | none => rw [hinit] at ha; simp at ha
    | some i =>
      rw [hinit] at ha
      cases i <;> simp at ha <;> simp [ha]

/-- Every assignment `finishEnumAssignment` contributes is keyed `enum` or
`isArray`. -/
theorem finishEnum_key_shape {Ty : Type} (checker : Checker Ty)
    (host : String) (t : Ty) (b : Bool) :
    ∀ a ∈ finishEnumAssignment checker host t b,
      a.1 = "enum" ∨ a.1 = "isArray" := by
  intro a ha
  unfold finishEnumAssignment at ha
  cases b
  · simp at ha
    simp [ha]
  · simp at ha
    rcases ha with h | h <;> simp [h]

/-- Every assignment the enum pipeline core contributes is keyed `enum` or
`isArray`. -/
theorem enumCore_key_shape {Ty : Type} (checker : Checker Ty) (host : String)
    (t0 : Ty) :
    ∀ a ∈ createEnumPropertyAssignmentCore checker host t0,
      a.1 = "enum" ∨ a.1 = "isArray" := by
  intro a ha
  unfold createEnumPropertyAssignmentCore at ha
  split at ha
  · simp at ha
  · simp only [] at ha
    split at ha
    · split at ha
      · simp at ha
      · split at ha
        · simp at ha
        · exact finishEnum_key_shape checker host _ _ a ha
    · exact finishEnum_key_shape checker host _ _ a ha

/-- The enum resolver contributes nothing when `enum` is already
present. -/
theorem enumAssignment_of_hasKey {Ty : Type} (checker : Checker Ty)
    (node : PropertyNode) (existing : List (String × Expr)) (host : String)
    (h : hasPropertyKey "enum" existing = true) :
    createEnumPropertyAssignment checker node existing host = [] := by
  unfold createEnumPropertyAssignment
  simp [h]

/-- Every assignment the enum resolver contributes is keyed `enum` or
`isArray`, and it only contributes at all when `enum` was not already
present. -/
theorem enumAssignment_key_shape {Ty : Type} (checker : Checker Ty)
    (node : PropertyNode) (existing : List (String × Expr)) (host : String) :
    ∀ a ∈ createEnumPropertyAssignment checker node existing host,
      (a.1 = "enum" ∨ a.1 = "isArray") ∧
      hasPropertyKey "enum" existing = false := by
  intro a ha
  by_cases h : hasPropertyKey "enum" existing = true
  · rw [enumAssignment_of_hasKey checker node existing host h] at ha
    simp at ha
  · replace h : hasPropertyKey "enum" existing = false := by simpa using h
    refine ⟨?_, h⟩
    unfold createEnumPropertyAssignment at ha
    rw [h] at ha
    simp only [Bool.false_eq_true, ite_false] at ha
    split at ha
    · simp at ha
    · split at ha
      · simp at ha
      · exact enumCore_key_shape checker host _ a ha

/-- Every assignment a single validation-decorator lookup contributes is
keyed by its metadata key. -/
theorem validationDecorator_key_shape (dn pk : String)
    (decorators : List Decorator) :
    ∀ a ∈ addPropertyByValidationDecorator dn pk decorators, a.1 = pk := by
  intro a ha
  unfold addPropertyByValidationDecorator at ha
  split at ha
  · simp at ha
  · split at ha
    · simp at ha
    · simp at ha
      simp [ha]

/-- Every assignment the validation-bound extractor contributes is keyed by
one of the four fixed metadata keys. -/
theorem validationAssignments_key_shape (node : PropertyNode) :
    ∀ a ∈ createValidationPropertyAssignments node,
      a.1 = "minimum" ∨ a.1 = "maximum" ∨ a.1 = "minLength" ∨
      a.1 = "maxLength" := by
  intro a ha
  unfold createValidationPropertyAssignments at ha
  rcases List.mem_append.1 ha with h | h
  rcases List.mem_append.1 h with h | h
  rcases List.mem_append.1 h with h | h
  · exact .inl (validationDecorator_key_shape _ _ _ a h)
  · exact .inr (.inl (validationDecorator_key_shape _ _ _ a h))
  · exact .inr (.inr (.inl (validationDecorator_key_shape _ _ _ a h)))
  · exact .inr (.inr (.inr (validationDecorator_key_shape _ _ _ a h)))

/-- Looking a key up in a concatenated record in which the appended part
never assigns that key gives the same value as looking it up in the
seed. -/
theorem recordValue_append_of_no_key (existing rest : List (String × Expr))
    (K : String) (h : ∀ a ∈ rest, a.1 ≠ K) :
    recordValue (existing ++ rest) K = recordValue existing K := by
  unfold recordValue
  rw [List.reverse_append, List.find?_append]
  have hnone : rest.reverse.find? (fun a => a.1 == K) = none := by
    refine List.find?_eq_none.2 (fun a ha => ?_)
    simpa using h a (List.mem_reverse.1 ha)
  rw [hnone]
  simp

/-- The required/type/documentation/default/enum contributions never carry
a key that is already present among the existing properties, except
possibly `nullable` and `isArray`, which are appended without a presence
check. -/
theorem resolver_parts_no_key {Ty : Type} (checker : Checker Ty)
    (node : PropertyNode) (existing : List (String × Expr))
    (options : PluginOptions) (host : String) (sf : Bool) (K : String)
    (hK1 : K ≠ "nullable") (hK2 : K ≠ "isArray")
    (hmem : hasPropertyKey K existing = true) :
    ∀ a ∈ ((if hasPropertyKey "required" existing then []
            else [("required", Expr.boolLit (!node.questionToken))]) ++
           createTypePropertyAssignments checker node.type existing host ++
           createDescriptionAndExamplePropertyAssigments checker node
             existing options sf ++
           (createDefaultPropertyAssignment node existing).toList ++
           createEnumPropertyAssignment checker node existing host),
      a.1 ≠ K := by
  intro a ha hak
  rcases List.mem_append.1 ha with ha | hEnum
  rcases List.mem_append.1 ha with ha | hDef
  rcases List.mem_append.1 ha with ha | hDoc
  rcases List.mem_append.1 ha with hReq | hTyp
  · by_cases hr : hasPropertyKey "required" existing = true
    · simp [hr] at hReq
    · replace hr : hasPropertyKey "required" existing = false := by simpa using hr
      rw [hr] at hReq
      simp at hReq
      have : K = "required" := by rw [← hak, hReq]
      rw [this] at hmem
      rw [hmem] at hr
      simp at hr
  · rcases typeAssignments_key_shape checker node.type existing host a hTyp
      with h | h
    · have hKt : K = "type" := by rw [← hak, h]
      rw [hKt] at hmem
      rw [typeAssignments_of_hasKey checker node.type existing host hmem]
        at hTyp
      simp at hTyp
    · exact hK1 (by rw [← hak, h])
  · have := docAssignments_guard checker node existing options sf a hDoc
    rw [hak] at this
    rw [hmem] at this
    simp at this
  · have h := defaultAssignment_key_shape node existing a hDef
    have hKd : K = "default" := by rw [← hak, h]
    rw [hKd] at hmem
    rw [defaultAssignment_of_hasKey node existing hmem] at hDef
    simp at hDef
  · rcases enumAssignment_key_shape checker node existing host a hEnum
      with ⟨h | h, hguard⟩
    · have hKe : K = "enum" := by rw [← hak, h]
      rw [hKe] at hmem
      rw [hmem] at hguard
      simp at hguard
    · exact hK2 (by rw [← hak, h])

/-- For any key other than the six unguarded ones — `nullable`, `isArray`,
`minimum`, `maximum`, `minLength`, `maxLength` — no resolver contribution,
the validation-bound extractor included, carries the key when it is
already present among the existing properties. -/
theorem rest_no_guarded_key {Ty : Type} (checker : Checker Ty)
    (node : PropertyNode) (existing : List (String × Expr))
    (options : PluginOptions) (host : String) (sf : Bool) (K : String)
    (hK1 : K ≠ "nullable") (hK2 : K ≠ "isArray") (hK3 : K ≠ "minimum")
    (hK4 : K ≠ "maximum") (hK5 : K ≠ "minLength") (hK6 : K ≠ "maxLength")
    (hmem : hasPropertyKey K existing = true) :
    ∀ a ∈ ((if hasPropertyKey "required" existing then []
            else [("required", Expr.boolLit (!node.questionToken))]) ++
           createTypePropertyAssignments checker node.type existing host ++
           createDescriptionAndExamplePropertyAssigments checker node
             existing options sf ++
           (createDefaultPropertyAssignment node existing).toList ++
           createEnumPropertyAssignment checker node existing host ++
           (if options.classValidatorShim then
             createValidationPropertyAssignments node
            else [])),
      a.1 ≠ K := by
  intro a ha hak
  rcases List.mem_append.1 ha with ha | hVal
  · exact resolver_parts_no_key checker node existing options host sf K hK1
      hK2 hmem a ha hak
  · by_cases hs : options.classValidatorShim = true
    · rw [hs] at hVal
      simp only [ite_true] at hVal
      rcases validationAssignments_key_shape node a hVal with h | h | h | h
      · exact hK3 (by rw [← hak, h])
      · exact hK4 (by rw [← hak, h])
      · exact hK5 (by rw [← hak, h])
      · exact hK6 (by rw [← hak, h])
    · replace hs : options.classValidatorShim = false := by simpa using hs
      rw [hs] at hVal
      simp at hVal

/-- Under an options object with the validation shim off (as in nested
type-literal resolution, whose options are `{}`), no resolver contribution
carries an already-present key other than `nullable` and `isArray`. -/
theorem rest_no_guarded_key_of_noShim {Ty : Type} (checker : Checker Ty)
    (node : PropertyNode) (existing : List (String × Expr))
    (options : PluginOptions) (host : String) (sf : Bool) (K : String)
    (hshim : options.classValidatorShim = false)
    (hK1 : K ≠ "nullable") (hK2 : K ≠ "isArray")
    (hmem : hasPropertyKey K existing = true) :
    ∀ a ∈ ((if hasPropertyKey "required" existing then []
            else [("required", Expr.boolLit (!node.questionToken))]) ++
           createTypePropertyAssignments checker node.type existing host ++
           createDescriptionAndExamplePropertyAssigments checker node
             existing options sf ++
           (createDefaultPropertyAssignment node existing).toList ++
           createEnumPropertyAssignment checker node existing host ++
           (if options.classValidatorShim then
             createValidationPropertyAssignments node
            else [])),
      a.1 ≠ K := by
  intro a ha hak
  rcases List.mem_append.1 ha with ha | hVal
  · exact resolver_parts_no_key checker node existing options host sf K hK1
      hK2 hmem a ha hak
  · rw [hshim] at hVal
    simp at hVal

/-! Claim C1. -/

/-- C1 counterexample: the claim "no resolver contributes an assignment for
a key already present" fails for the validation-bound keys.  With
`classValidatorShim` on, a property decorated `@Min(5)` whose explicit
annotations already contain `minimum: 1` ends with a second `minimum`
assignment appended after the explicit one, and under JavaScript
object-literal evaluation (last assignment wins) the final record's value
for `minimum` is the inferred `5`, not the explicit `1`. -/
theorem c1_counterexample :
    createDecoratorObjectLiteralExpr trivialChecker minDecoratedProp
      [("minimum", Expr.numLit 1)] ⟨true, false, "description"⟩ "" false =
    [("minimum", Expr.numLit 1), ("required", Expr.boolLit true),
     ("minimum", Expr.numLit 5)] ∧
    recordValue (createDecoratorObjectLiteralExpr trivialChecker
      minDecoratedProp [("minimum", Expr.numLit 1)]
      ⟨true, false, "description"⟩ "" false) "minimum" =
      some (Expr.numLit 5) ∧
    recordValue [("minimum", Expr.numLit 1)] "minimum" =
      some (Expr.numLit 1) := by
  have hout : createDecoratorObjectLiteralExpr trivialChecker minDecoratedProp
      [("minimum", Expr.numLit 1)] ⟨true, false, "description"⟩ "" false =
      [("minimum", Expr.numLit 1), ("required", Expr.boolLit true),
       ("minimum", Expr.numLit 5)] := by
    rw [objLit_parts]
    simp [minDecoratedProp, PropertyNode.type, PropertyNode.questionToken,
      PropertyNode.initializer, PropertyNode.decorators, PropertyNode.name,
      hasPropertyKey, createDescriptionAndExamplePropertyAssigments,
      createDefaultPropertyAssignment, createEnumPropertyAssignment,
      trivialChecker, createValidationPropertyAssignments,
      addPropertyByValidationDecorator, getDecoratorOrUndefinedByNames,
      createTypePropertyAssignments, fallbackTypeReference]
  refine ⟨hout, ?_, ?_⟩
  · rw [hout]
    simp [recordValue]
  · simp [recordValue]

/-- C1 (amended): explicit precedence holds for EVERY key other than the
six unguarded ones `nullable`, `isArray`, `minimum`, `maximum`,
`minLength` and `maxLength`: the explicit assignments are seeded first, no
resolver contributes any other already-present key (the `required`, `type`,
`default`, `enum`, description and example keys are each guarded by their
own presence check, and no resolver emits keys outside its fixed
vocabulary), and the final record's value for such a key equals the
explicit record's value.  For the six unguarded keys precedence fails —
see the counterexample. -/
theorem c1_explicit_precedence {Ty : Type} (checker : Checker Ty)
    (node : PropertyNode) (existing : List (String × Expr))
    (options : PluginOptions) (host : String) (sf : Bool) (K : String)
    (hK1 : K ≠ "nullable") (hK2 : K ≠ "isArray") (hK3 : K ≠ "minimum")
    (hK4 : K ≠ "maximum") (hK5 : K ≠ "minLength") (hK6 : K ≠ "maxLength")
    (hmem : hasPropertyKey K existing = true) :
    ∃ rest,
      createDecoratorObjectLiteralExpr checker node existing options host sf =
        existing ++ rest ∧
      (∀ a ∈ rest, a.1 ≠ K) ∧
      recordValue (createDecoratorObjectLiteralExpr checker node existing
        options host sf) K = recordValue existing K := by
  refine ⟨_, objLit_parts checker node existing options host sf,
    rest_no_guarded_key checker node existing options host sf K hK1 hK2 hK3
      hK4 hK5 hK6 hmem, ?_⟩
  rw [objLit_parts checker node existing options host sf]
  exact recordValue_append_of_no_key existing _ K
    (rest_no_guarded_key checker node existing options host sf K hK1 hK2 hK3
      hK4 hK5 hK6 hmem)

/-- C1 witness: the amended explicit-precedence theorem applied at two
concrete inputs — an explicit `type` annotation, and an explicit
`description` annotation on a property whose documentation extractor does
find a comment (the description contribution is skipped because the key is
already present). -/
theorem c1_explicit_precedence_witness :
    (hasPropertyKey "type" [("type", Expr.raw 0)] = true ∧
     ∃ rest,
      createDecoratorObjectLiteralExpr trivialChecker (namedProp "x")
        [("type", Expr.raw 0)] {} "" false = [("type", Expr.raw 0)] ++ rest ∧
      (∀ a ∈ rest, a.1 ≠ "type") ∧
      recordValue (createDecoratorObjectLiteralExpr trivialChecker
        (namedProp "x") [("type", Expr.raw 0)] {} "" false) "type" =
        recordValue [("type", Expr.raw 0)] "type") ∧
    (hasPropertyKey "description" [("description", Expr.raw 1)] = true ∧
     ∃ rest,
      createDecoratorObjectLiteralExpr docChecker (namedProp "a")
        [("description", Expr.raw 1)] ⟨false, true, "description"⟩ ""
        true = [("description", Expr.raw 1)] ++ rest ∧
      (∀ a ∈ rest, a.1 ≠ "description") ∧
      recordValue (createDecoratorObjectLiteralExpr docChecker (namedProp "a")
        [("description", Expr.raw 1)] ⟨false, true, "description"⟩ ""
        true) "description" =
        recordValue [("description", Expr.raw 1)] "description") :=
  ⟨⟨by decide, c1_explicit_precedence trivialChecker (namedProp "x")
    [("type", Expr.raw 0)] {} "" false "type" (by decide) (by decide)
    (by decide) (by decide) (by decide) (by decide) (by decide)⟩,
   ⟨by decide, c1_explicit_precedence docChecker (namedProp "a")
    [("description", Expr.raw 1)] ⟨false, true, "description"⟩ "" true
    "description" (by decide) (by decide) (by decide) (by decide)
    (by decide) (by decide) (by decide)⟩⟩

/-! Claim C2. -/

/-- C2: per-property failure isolation.  If resolving one property's object
literal raises an error, the `try`/`catch` of the property visitor leaves
the class metadata map exactly as it was (the single map assignment happens
only after resolution has completed, so no record — partial or otherwise —
is contributed), and the scan of a class containing that property produces
the same map as the scan without it; no error propagates to the caller
(the scan is a total function into metadata maps). -/
theorem c2_failure_isolation {ε : Type}
    (resolveObjectLiteral : PropertyNode → Except ε (List (String × Expr)))
    (xs ys : List PropertyDeclaration) (p : PropertyDeclaration)
    (md : ClassMetadata) (e : ε)
    (herr : resolveObjectLiteral p.core = .error e) :
    propertyNodeVisitor resolveObjectLiteral md p = md ∧
    visitClassProperties resolveObjectLiteral (xs ++ p :: ys) =
      visitClassProperties resolveObjectLiteral (xs ++ ys) := by
  have hstep : ∀ md2 : ClassMetadata,
      propertyNodeVisitor resolveObjectLiteral md2 p = md2 := by
    intro md2
    unfold propertyNodeVisitor
    split
    · rfl
    · split
      · rfl
      · unfold inspectPropertyDeclarationE
        rw [herr]
  refine ⟨hstep md, ?_⟩
  unfold visitClassProperties
  rw [List.foldl_append, List.foldl_append]
  simp only [List.foldl_cons]
  rw [hstep]

/-- C2 witness: the isolation theorem applied to a concrete
always-failing resolution in the middle of a three-property class. -/
theorem c2_failure_isolation_witness :
    propertyNodeVisitor
      (fun _ : PropertyNode =>
        (Except.error () : Except Unit (List (String × Expr))))
      [] (catDecl "x") = [] ∧
    visitClassProperties
      (fun _ : PropertyNode =>
        (Except.error () : Except Unit (List (String × Expr))))
      [catDecl "a", catDecl "x", catDecl "b"] =
    visitClassProperties
      (fun _ : PropertyNode =>
        (Except.error () : Except Unit (List (String × Expr))))
      [catDecl "a", catDecl "b"] :=
  c2_failure_isolation
    (fun _ : PropertyNode =>
      (Except.error () : Except Unit (List (String × Expr))))
    [catDecl "a"] [catDecl "b"] (catDecl "x") [] () rfl

/-! Claim C9. -/

/-- C9: a class without a resolvable name (no name node, or empty name
text — both falsy in the source's test) gets no metadata at all:
`addClassMetadata` leaves the map untouched for every property of such a
class, and the whole scan of such a class produces the empty map — the
only side effect the core performs, the map insertion, never happens. -/
theorem c9_unnamed_class_discards {ε : Type}
    (resolveObjectLiteral : PropertyNode → Except ε (List (String × Expr)))
    (decls : List PropertyDeclaration)
    (h : ∀ p ∈ decls, p.hostClassName = none ∨ p.hostClassName = some "") :
    visitClassProperties resolveObjectLiteral decls = [] ∧
    (∀ (decl : PropertyDeclaration) (obj : List (String × Expr))
       (md : ClassMetadata),
       decl.hostClassName = none ∨ decl.hostClassName = some "" →
       addClassMetadata decl obj md = md) := by
  have haddr : ∀ (decl : PropertyDeclaration) (obj : List (String × Expr))
      (md : ClassMetadata),
      decl.hostClassName = none ∨ decl.hostClassName = some "" →
      addClassMetadata decl obj md = md := by
    intro decl obj md hd
    unfold addClassMetadata
    rcases hd with hd | hd <;> simp [hd]
  have hstep : ∀ (md : ClassMetadata) (p : PropertyDeclaration),
      p.hostClassName = none ∨ p.hostClassName = some "" →
      propertyNodeVisitor resolveObjectLiteral md p = md := by
    intro md p hp
    unfold propertyNodeVisitor
    split
    · rfl
    · split
      · rfl
      · unfold inspectPropertyDeclarationE
        cases hres : resolveObjectLiteral p.core with
        | error e => rfl
        | ok obj => simp [haddr p obj md hp]
  have hfold : ∀ (ds : List PropertyDeclaration) (md : ClassMetadata),
      (∀ p ∈ ds, p.hostClassName = none ∨ p.hostClassName = some "") →
      ds.foldl (propertyNodeVisitor resolveObjectLiteral) md = md := by
    intro ds
    induction ds with
    | nil => intro md _; rfl
    | cons d rest ih =>
      intro md hds
      simp only [List.foldl_cons]
      rw [hstep md d (hds d (by simp))]
      exact ih md (fun p hp => hds p (by simp [hp]))
  exact ⟨hfold decls [] h, haddr⟩

/-- C9 witness: the discard theorem applied to a concrete two-property
class without a resolvable name, with the pure (non-throwing)
resolution. -/
theorem c9_unnamed_class_discards_witness :
    visitClassProperties (resolvePure trivialChecker {} "")
      [unnamedClassDecl "a", unnamedClassDecl "b"] = [] ∧
    (∀ (decl : PropertyDeclaration) (obj : List (String × Expr))
       (md : ClassMetadata),
       decl.hostClassName = none ∨ decl.hostClassName = some "" →
       addClassMetadata decl obj md = md) :=
  c9_unnamed_class_discards (resolvePure trivialChecker {} "")
    [unnamedClassDecl "a", unnamedClassDecl "b"]
    (by intro p hp; simp [unnamedClassDecl] at hp; rcases hp with h | h <;>
      simp [h, unnamedClassDecl])

/-! Claim C3. -/

/-- In a two-member union holding one non-null-like and one null-like
member (in either order), removing the null-like variant leaves exactly the
non-null member, and a null-like variant was found. -/
theorem remainingUnionTypes_pair {a b : TypeNode}
    (ha : isNullLikeTypeNode a = false) (hb : isNullLikeTypeNode b = true) :
    remainingUnionTypes [a, b] = [a] ∧
    remainingUnionTypes [b, a] = [a] ∧
    (([a, b] : List TypeNode).findIdx? isNullLikeTypeNode).isSome = true ∧
    (([b, a] : List TypeNode).findIdx? isNullLikeTypeNode).isSome = true := by
  refine ⟨?_, ?_, ?_, ?_⟩ <;>
    simp [remainingUnionTypes, List.findIdx?_cons, ha, hb, List.eraseIdx]

/-- C3: nullable unwrap.  For a property typed `T | null` (a two-member
union of a plain reference node `T` and a null-like node, in either order)
with no explicit `type` key, when the checker resolves `T` to a canonical
reference, the type resolver contributes exactly
`type = <thunked normalized reference to T>` together with
`nullable = true`. -/
theorem c3_nullable_unwrap {Ty : Type} (checker : Checker Ty)
    (idn : Nat) (ttxt : String) (tN : TypeNode) (utxt : String)
    (existing : List (String × Expr)) (host : String) (ty : Ty) (ref : String)
    (hkey : hasPropertyKey "type" existing = false)
    (hT : ttxt ≠ "null")
    (hN : isNullLikeTypeNode tN = true)
    (hloc : checker.getTypeAtLocationNode (some (TypeNode.other idn ttxt)) =
      some ty)
    (href : checker.getTypeReferenceAsString ty = some ref) :
    createTypePropertyAssignments checker
      (some (.unionType [TypeNode.other idn ttxt, tN] utxt)) existing host =
      [("type", Expr.arrow (Expr.ident (checker.replaceImportPath ref host))),
       ("nullable", Expr.boolLit true)] ∧
    createTypePropertyAssignments checker
      (some (.unionType [tN, TypeNode.other idn ttxt] utxt)) existing host =
      [("type", Expr.arrow (Expr.ident (checker.replaceImportPath ref host))),
       ("nullable", Expr.boolLit true)] := by
  have hTn : isNullLikeTypeNode (TypeNode.other idn ttxt) = false := by
    simp [isNullLikeTypeNode, TypeNode.getText]
    exact hT
  obtain ⟨hp1, hp2, hi1, hi2⟩ := remainingUnionTypes_pair hTn hN
  have hrec : createTypePropertyAssignments checker
      (some (TypeNode.other idn ttxt)) existing host =
      [("type", Expr.arrow (Expr.ident
        (checker.replaceImportPath ref host)))] := by
    rw [typeAssignments_other checker idn ttxt existing host hkey]
    unfold fallbackTypeReference
    rw [hloc]
    simp [href]
  constructor
  · rw [typeAssignments_union_single checker _ _ utxt existing host hkey hp1]
    rw [hrec]
    simp [hi1, hTn, hN]
  · rw [typeAssignments_union_single checker _ _ utxt existing host hkey hp2]
    rw [hrec]
    simp [hi2, hTn, hN]

/-- C3 witness: the nullable-unwrap theorem applied to `T | null` with a
concrete checker resolving `T`. -/
theorem c3_nullable_unwrap_witness :
    isNullLikeTypeNode TypeNode.nullKeyword = true ∧
    createTypePropertyAssignments unionChecker
      (some (.unionType [TypeNode.other 5 "T", TypeNode.nullKeyword]
        "T | null")) [] "main.ts" =
      [("type", Expr.arrow (Expr.ident "T")),
       ("nullable", Expr.boolLit true)] :=
  ⟨by decide,
   (c3_nullable_unwrap unionChecker 5 "T" TypeNode.nullKeyword "T | null"
     [] "main.ts" 9 "T" (by decide) (by decide) (by decide) rfl rfl).1⟩

/-! Claim C4. -/

/-- C4 counterexample: the claim "a union with two or more remaining
members contributes no `type` key" fails.  Such a union FALLS THROUGH to
the generic checker reference lookup applied to the whole union node; for
a concrete checker resolving the union type (as the repository's
`getTypeReferenceAsString` does for optional-boolean unions such as
`boolean | undefined`), the resolver contributes a `type` key. -/
theorem c4_counterexample :
    createTypePropertyAssignments unionChecker
      (some (.unionType [TypeNode.other 0 "boolean",
        TypeNode.other 1 "undefined"] "boolean | undefined")) [] "main.ts" =
      [("type", Expr.arrow (Expr.ident "Boolean"))] := by
  rw [typeAssignments_union_fallthrough unionChecker _ _ [] "main.ts"
    (by decide) (by decide)]
  unfold fallbackTypeReference
  simp [unionChecker]

/-- C4 (amended): for a property whose declared union type has two or more
members remaining after removing the first null-like variant, the union
branch itself contributes nothing — in particular no `nullable` key ever
appears — but resolution falls through to the generic checker reference
lookup applied to the whole union node, so a `type` key is contributed
exactly when the checker yields a canonical reference for the entire union
type. -/
theorem c4_multi_union_fallthrough {Ty : Type} (checker : Checker Ty)
    (types : List TypeNode) (txt : String)
    (existing : List (String × Expr)) (host : String)
    (hkey : hasPropertyKey "type" existing = false)
    (hlen : 2 ≤ (remainingUnionTypes types).length) :
    createTypePropertyAssignments checker (some (.unionType types txt))
      existing host =
      fallbackTypeReference checker (some (.unionType types txt)) host ∧
    (∀ a ∈ createTypePropertyAssignments checker
      (some (.unionType types txt)) existing host, a.1 = "type") := by
  have hne : (remainingUnionTypes types).length ≠ 1 := by omega
  have heq := typeAssignments_union_fallthrough checker types txt existing
    host hkey hne
  refine ⟨heq, ?_⟩
  rw [heq]
  exact fallbackTypeReference_key_shape checker _ host

/-- C4 witness: the fall-through theorem applied to the concrete
two-member union `boolean | undefined`. -/
theorem c4_multi_union_fallthrough_witness :
    2 ≤ (remainingUnionTypes [TypeNode.other 0 "boolean",
      TypeNode.other 1 "undefined"]).length ∧
    createTypePropertyAssignments unionChecker
      (some (.unionType [TypeNode.other 0 "boolean",
        TypeNode.other 1 "undefined"] "boolean | undefined")) [] "main.ts" =
      fallbackTypeReference unionChecker
        (some (.unionType [TypeNode.other 0 "boolean",
          TypeNode.other 1 "undefined"] "boolean | undefined")) "main.ts" :=
  ⟨by decide,
   (c4_multi_union_fallthrough unionChecker
     [TypeNode.other 0 "boolean", TypeNode.other 1 "undefined"]
     "boolean | undefined" [] "main.ts" (by decide) (by decide)).1⟩

/-! Claims C5 and C6: the enum resolver. -/

/-- Entry of the enum resolver when the resolved type is not an
auto-generated union: the pipeline core runs on the resolved type
itself. -/
theorem enumAssignment_entry_plain {Ty : Type} (checker : Checker Ty)
    (node : PropertyNode) (existing : List (String × Expr)) (host : String)
    (ty : Ty)
    (hkey : hasPropertyKey "enum" existing = false)
    (hloc : checker.getTypeAtLocationProp node = some ty)
    (hauto : checker.isAutoGeneratedTypeUnion ty = false) :
    createEnumPropertyAssignment checker node existing host =
      createEnumPropertyAssignmentCore checker host ty := by
  unfold createEnumPropertyAssignment
  simp [hkey, hloc, hauto]

/-- Entry of the enum resolver when the resolved type IS an auto-generated
union: the working type is replaced by the union's last constituent before
the pipeline core runs. -/
theorem enumAssignment_entry_auto {Ty : Type} (checker : Checker Ty)
    (node : PropertyNode) (existing : List (String × Expr)) (host : String)
    (ty tlast : Ty)
    (hkey : hasPropertyKey "enum" existing = false)
    (hloc : checker.getTypeAtLocationProp node = some ty)
    (hauto : checker.isAutoGeneratedTypeUnion ty = true)
    (hlast : (checker.unionTypes ty).getLast? = some tlast) :
    createEnumPropertyAssignment checker node existing host =
      createEnumPropertyAssignmentCore checker host tlast := by
  unfold createEnumPropertyAssignment
  simp [hkey, hloc, hauto, hlast]

/-- When the (possibly replaced) working type unwraps to a genuine enum
type that is not a single enum member, the pipeline core finishes directly
with that element type and the unwrap flag. -/
theorem enumCore_direct {Ty : Type} (checker : Checker Ty) (host : String)
    (t0 e : Ty) (b : Bool)
    (hex : checker.extractTypeArgumentIfArray t0 = some (e, b))
    (hen : checker.isEnum e = true)
    (hmem : checker.isEnumMemberSymbol e = false) :
    createEnumPropertyAssignmentCore checker host t0 =
      finishEnumAssignment checker host e b := by
  unfold createEnumPropertyAssignmentCore
  simp [hex, hen, hmem]

/-- C6: whenever the checker reports the property's resolved type as an
auto-generated union, the enum resolver replaces the working type with the
LAST constituent of the union's member list before any array-unwrapping or
enum detection is attempted: its result is exactly the unwrap/detection
pipeline (`createEnumPropertyAssignmentCore`) run on that last
constituent. -/
theorem c6_auto_union_last_constituent {Ty : Type} (checker : Checker Ty)
    (node : PropertyNode) (existing : List (String × Expr)) (host : String)
    (ty tlast : Ty)
    (hkey : hasPropertyKey "enum" existing = false)
    (hloc : checker.getTypeAtLocationProp node = some ty)
    (hauto : checker.isAutoGeneratedTypeUnion ty = true)
    (hlast : (checker.unionTypes ty).getLast? = some tlast) :
    createEnumPropertyAssignment checker node existing host =
      createEnumPropertyAssignmentCore checker host tlast :=
  enumAssignment_entry_auto checker node existing host ty tlast hkey hloc
    hauto hlast

/-- C6 witness: the replacement theorem applied to a concrete checker whose
property `tags` resolves to an auto-generated union with constituents
`[3, 0]`: the pipeline runs on the last constituent `0` (the `Role[]`
handle), so the property resolves as an array of the enum `Role`. -/
theorem c6_auto_union_last_constituent_witness :
    enumChecker.isAutoGeneratedTypeUnion 2 = true ∧
    (enumChecker.unionTypes 2).getLast? = some 0 ∧
    createEnumPropertyAssignment enumChecker (namedProp "tags") [] "" =
      createEnumPropertyAssignmentCore enumChecker "" 0 :=
  ⟨by decide, by decide,
   c6_auto_union_last_constituent enumChecker (namedProp "tags") [] "" 2 0
     (by decide) (by decide) (by decide) (by decide)⟩

/-- C5: array-of-enum resolution.  (a) With no explicit `enum` key, a
property whose resolved type unwraps directly as an array of an enum `E`
contributes `enum = <normalized E>` and `isArray = true`.  (b) The same
holds when the array type is reached through an auto-generated union
wrapper (the union's last constituent).  (c) A non-array enum type
contributes only the `enum` key — no `isArray`.  (d) In the assembled
record of such a property (no explicit `type` key, checker miss for the
node's declared type, comment introspection off), no `type` key is present
while the `enum` key is. -/
theorem c5_array_of_enum {Ty : Type} (checker : Checker Ty)
    (node : PropertyNode) (existing : List (String × Expr))
    (options : PluginOptions) (host : String) (sf : Bool) (t0 tlast e : Ty) :
    (hasPropertyKey "enum" existing = false →
     checker.getTypeAtLocationProp node = some t0 →
     checker.isAutoGeneratedTypeUnion t0 = false →
     checker.extractTypeArgumentIfArray t0 = some (e, true) →
     checker.isEnum e = true →
     checker.isEnumMemberSymbol e = false →
     createEnumPropertyAssignment checker node existing host =
       [("enum", Expr.ident (checker.replaceImportPath (checker.getText e)
           host)),
        ("isArray", Expr.ident "true")]) ∧
    (hasPropertyKey "enum" existing = false →
     checker.getTypeAtLocationProp node = some t0 →
     checker.isAutoGeneratedTypeUnion t0 = true →
     (checker.unionTypes t0).getLast? = some tlast →
     checker.extractTypeArgumentIfArray tlast = some (e, true) →
     checker.isEnum e = true →
     checker.isEnumMemberSymbol e = false →
     createEnumPropertyAssignment checker node existing host =
       [("enum", Expr.ident (checker.replaceImportPath (checker.getText e)
           host)),
        ("isArray", Expr.ident "true")]) ∧
    (hasPropertyKey "enum" existing = false →
     checker.getTypeAtLocationProp node = some t0 →
     checker.isAutoGeneratedTypeUnion t0 = false →
     checker.extractTypeArgumentIfArray t0 = some (e, false) →
     checker.isEnum e = true →
     checker.isEnumMemberSymbol e = false →
     createEnumPropertyAssignment checker node existing host =
       [("enum", Expr.ident (checker.replaceImportPath (checker.getText e)
           host))]) ∧
    (hasPropertyKey "enum" existing = false →
     hasPropertyKey "type" existing = false →
     checker.getTypeAtLocationNode node.type = none →
     options.introspectComments = false →
     (node.type = none ∨ ∃ i s, node.type = some (.other i s)) →
     checker.getTypeAtLocationProp node = some t0 →
     checker.isAutoGeneratedTypeUnion t0 = false →
     checker.extractTypeArgumentIfArray t0 = some (e, true) →
     checker.isEnum e = true →
     checker.isEnumMemberSymbol e = false →
     hasPropertyKey "type" (createDecoratorObjectLiteralExpr checker node
       existing options host sf) = false ∧
     hasPropertyKey "enum" (createDecoratorObjectLiteralExpr checker node
       existing options host sf) = true) := by
  have hdirect : ∀ (b : Bool),
      hasPropertyKey "enum" existing = false →
      checker.getTypeAtLocationProp node = some t0 →
      checker.isAutoGeneratedTypeUnion t0 = false →
      checker.extractTypeArgumentIfArray t0 = some (e, b) →
      checker.isEnum e = true →
      checker.isEnumMemberSymbol e = false →
      createEnumPropertyAssignment checker node existing host =
        finishEnumAssignment checker host e b := by
    intro b hkey hloc hauto hex hen hmem
    rw [enumAssignment_entry_plain checker node existing host t0 hkey hloc
      hauto]
    exact enumCore_direct checker host t0 e b hex hen hmem
  refine ⟨?_, ?_, ?_, ?_⟩
  · intro hkey hloc hauto hex hen hmem
    rw [hdirect true hkey hloc hauto hex hen hmem]
    unfold finishEnumAssignment
    simp
  · intro hkey hloc hauto hlast hex hen hmem
    rw [enumAssignment_entry_auto checker node existing host t0 tlast hkey
      hloc hauto hlast]
    rw [enumCore_direct checker host tlast e true hex hen hmem]
    unfold finishEnumAssignment
    simp
  · intro hkey hloc hauto hex hen hmem
    rw [hdirect false hkey hloc hauto hex hen hmem]
    unfold finishEnumAssignment
    simp
  · intro hkey htkey hnode hic hshape hloc hauto hex hen hmem
    have henum : createEnumPropertyAssignment checker node existing host =
        [("enum", Expr.ident (checker.replaceImportPath (checker.getText e)
            host)),
         ("isArray", Expr.ident "true")] := by
      rw [hdirect true hkey hloc hauto hex hen hmem]
      unfold finishEnumAssignment
      simp
    have htype : createTypePropertyAssignments checker node.type existing
        host = [] := by
      rcases hshape with h | ⟨i, s, h⟩
      · rw [h, typeAssignments_none checker existing host htkey]
        unfold fallbackTypeReference
        rw [h] at hnode
        simp [hnode]
      · rw [h, typeAssignments_other checker i s existing host htkey]
        unfold fallbackTypeReference
        rw [h] at hnode
        simp [hnode]
    have hdoc : createDescriptionAndExamplePropertyAssigments checker node
        existing options sf = [] := by
      unfold createDescriptionAndExamplePropertyAssigments
      simp [hic]
    rw [objLit_parts checker node existing options host sf]
    rw [htype, hdoc, henum]
    have hvalKeys : ∀ a ∈ (if options.classValidatorShim then
        createValidationPropertyAssignments node else []),
        a.1 ≠ "type" := by
      intro a ha
      by_cases hs : options.classValidatorShim = true
      · rw [hs] at ha
        simp only [ite_true] at ha
        rcases validationAssignments_key_shape node a ha with h | h | h | h <;>
          rw [h] <;> decide
      · replace hs : options.classValidatorShim = false := by simpa using hs
        rw [hs] at ha
        simp at ha
    have hdefKeys : ∀ a ∈ (createDefaultPropertyAssignment node
        existing).toList, a.1 ≠ "type" := by
      intro a ha
      rw [defaultAssignment_key_shape node existing a ha]
      decide
    have hreqKeys : ∀ a ∈ (if hasPropertyKey "required" existing then
        ([] : List (String × Expr))
        else [("required", Expr.boolLit (!node.questionToken))]),
        a.1 ≠ "type" := by
      intro a ha
      split at ha
      · simp at ha
      · simp at ha
        simp [ha]
    constructor
    · unfold hasPropertyKey at htkey ⊢
      rw [List.any_eq_false]
      intro a ha
      simp only [List.mem_append, List.append_nil, List.nil_append,
        List.not_mem_nil, false_or, or_false, List.mem_cons,
        List.mem_singleton] at ha
      rcases ha with hx | (((hr | hd) | ha1 | ha2) | hv)
      · have := List.any_eq_false.1 htkey a hx
        simpa using this
      · simpa using hreqKeys a hr
      · simpa using hdefKeys a hd
      · simp [ha1]
      · simp [ha2]
      · simpa using hvalKeys a hv
    · unfold hasPropertyKey
      simp [List.any_append]

/-- C5 witness: the array-of-enum theorem applied to the concrete enum
checker: `roles: Role[]` (direct array), `tags` (array reached through the
auto-generated union wrapper), `role: Role` (non-array), and the assembled
record of `roles` (no `type` key, `enum` key present). -/
theorem c5_array_of_enum_witness :
    createEnumPropertyAssignment enumChecker (namedProp "roles") [] "" =
      [("enum", Expr.ident "Role"), ("isArray", Expr.ident "true")] ∧
    createEnumPropertyAssignment enumChecker (namedProp "tags") [] "" =
      [("enum", Expr.ident "Role"), ("isArray", Expr.ident "true")] ∧
    createEnumPropertyAssignment enumChecker (namedProp "role") [] "" =
      [("enum", Expr.ident "Role")] ∧
    hasPropertyKey "type" (createDecoratorObjectLiteralExpr enumChecker
      (namedProp "roles") [] {} "" false) = false ∧
    hasPropertyKey "enum" (createDecoratorObjectLiteralExpr enumChecker
      (namedProp "roles") [] {} "" false) = true := by
  refine ⟨?_, ?_, ?_, ?_, ?_⟩
  · exact (c5_array_of_enum enumChecker (namedProp "roles") [] {} "" false
      0 0 1).1 (by decide) (by decide) (by decide) (by decide) (by decide)
      (by decide)
  · exact (c5_array_of_enum enumChecker (namedProp "tags") [] {} "" false
      2 0 1).2.1 (by decide) (by decide) (by decide) (by decide) (by decide)
      (by decide) (by decide)
  · exact (c5_array_of_enum enumChecker (namedProp "role") [] {} "" false
      1 1 1).2.2.1 (by decide) (by decide) (by decide) (by decide)
      (by decide) (by decide)
  · exact ((c5_array_of_enum enumChecker (namedProp "roles") [] {} "" false
      0 0 1).2.2.2 (by decide) (by decide) (by decide) (by decide)
      (.inl rfl) (by decide) (by decide) (by decide) (by decide)
      (by decide)).1
  · exact ((c5_array_of_enum enumChecker (namedProp "roles") [] {} "" false
      0 0 1).2.2.2 (by decide) (by decide) (by decide) (by decide)
      (.inl rfl) (by decide) (by decide) (by decide) (by decide)
      (by decide)).2

/-! Claim C7: the documentation enricher. -/

/-- Key presence distributes over record concatenation. -/
theorem hasPropertyKey_append (K : String) (l1 l2 : List (String × Expr)) :
    hasPropertyKey K (l1 ++ l2) =
      (hasPropertyKey K l1 || hasPropertyKey K l2) := by
  simp [hasPropertyKey]

/-- A record none of whose assignments carries the key does not have the
key. -/
theorem hasPropertyKey_eq_false_of_shape (K : String)
    (l : List (String × Expr)) (h : ∀ a ∈ l, a.1 ≠ K) :
    hasPropertyKey K l = false := by
  unfold hasPropertyKey
  rw [List.any_eq_false]
  intro a ha
  simpa using h a ha

/-- The last assignment of a key wins under object-literal evaluation. -/
theorem recordValue_append_single (l : List (String × Expr)) (K : String)
    (v : Expr) : recordValue (l ++ [(K, v)]) K = some v := by
  unfold recordValue
  simp [List.reverse_append]

/-- The enricher's output when introspection is enabled and a source file
is present: the guarded description part followed by the guarded example
part. -/
theorem docAssignments_unfolded {Ty : Type} (checker : Checker Ty)
    (node : PropertyNode) (existing : List (String × Expr))
    (options : PluginOptions)
    (hintro : options.introspectComments = true) :
    createDescriptionAndExamplePropertyAssigments checker node existing
      options true =
    (if !hasPropertyKey options.dtoKeyOfComment existing &&
        (checker.getMainCommentAndExamples node).1 != "" then
      [(options.dtoKeyOfComment,
        Expr.strLit (checker.getMainCommentAndExamples node).1)]
     else []) ++
    (if hasPropertyKey "example" existing ||
        hasPropertyKey "examples" existing then []
     else
      match (checker.getMainCommentAndExamples node).2 with
      | [] => []
      | [e] => [("example", createLiteralFromAnyValue e)]
      | es => [("examples", createLiteralFromAnyValue (.arr es))]) := by
  unfold createDescriptionAndExamplePropertyAssigments
  simp [hintro]

/-- The description part of the enricher never carries the key `example`
or `examples` when the configured description key is neither. -/
theorem descriptionPart_no_example_keys {Ty : Type} (checker : Checker Ty)
    (node : PropertyNode) (existing : List (String × Expr))
    (options : PluginOptions)
    (hkc1 : options.dtoKeyOfComment ≠ "example")
    (hkc2 : options.dtoKeyOfComment ≠ "examples") :
    ∀ a ∈ (if !hasPropertyKey options.dtoKeyOfComment existing &&
        (checker.getMainCommentAndExamples node).1 != "" then
      [(options.dtoKeyOfComment,
        Expr.strLit (checker.getMainCommentAndExamples node).1)]
     else []), a.1 ≠ "example" ∧ a.1 ≠ "examples" := by
  intro a ha
  split at ha
  · simp at ha
    simp [ha]
    exact ⟨hkc1, hkc2⟩
  · simp at ha

/-- C7: example cardinality of the documentation enricher.  With comment
introspection on, a source file present, a description key that is neither
`example` nor `examples`, and neither `example` nor `examples` among the
explicit keys: zero extracted example values contribute neither key;
exactly one contributes exactly `example` (the converted single value);
two or more contribute exactly `examples` (the converted ordered
sequence); and in the assembled record of such a property the keys
`example` and `examples` are never both present. -/
theorem c7_example_cardinality {Ty : Type} (checker : Checker Ty)
    (node : PropertyNode) (existing : List (String × Expr))
    (options : PluginOptions) (host : String)
    (hintro : options.introspectComments = true)
    (hkc1 : options.dtoKeyOfComment ≠ "example")
    (hkc2 : options.dtoKeyOfComment ≠ "examples")
    (hx1 : hasPropertyKey "example" existing = false)
    (hx2 : hasPropertyKey "examples" existing = false) :
    ((checker.getMainCommentAndExamples node).2 = [] →
      hasPropertyKey "example" (createDescriptionAndExamplePropertyAssigments
        checker node existing options true) = false ∧
      hasPropertyKey "examples"
        (createDescriptionAndExamplePropertyAssigments checker node existing
          options true) = false) ∧
    (∀ e, (checker.getMainCommentAndExamples node).2 = [e] →
      hasPropertyKey "example" (createDescriptionAndExamplePropertyAssigments
        checker node existing options true) = true ∧
      hasPropertyKey "examples"
        (createDescriptionAndExamplePropertyAssigments checker node existing
          options true) = false ∧
      recordValue (createDescriptionAndExamplePropertyAssigments checker node
        existing options true) "example" =
        some (createLiteralFromAnyValue e)) ∧
    (∀ e1 e2 rest,
      (checker.getMainCommentAndExamples node).2 = e1 :: e2 :: rest →
      hasPropertyKey "examples"
        (createDescriptionAndExamplePropertyAssigments checker node existing
          options true) = true ∧
      hasPropertyKey "example"
        (createDescriptionAndExamplePropertyAssigments checker node existing
          options true) = false ∧
      recordValue (createDescriptionAndExamplePropertyAssigments checker node
        existing options true) "examples" =
        some (createLiteralFromAnyValue (.arr (e1 :: e2 :: rest)))) ∧
    ¬(hasPropertyKey "example" (createDecoratorObjectLiteralExpr checker node
        existing options host true) = true ∧
      hasPropertyKey "examples" (createDecoratorObjectLiteralExpr checker
        node existing options host true) = true) := by
  have hdesc := descriptionPart_no_example_keys checker node existing options
    hkc1 hkc2
  have hguard : (hasPropertyKey "example" existing ||
      hasPropertyKey "examples" existing) = false := by
    simp [hx1, hx2]
  have hun := docAssignments_unfolded checker node existing options hintro
  refine ⟨?_, ?_, ?_, ?_⟩
  · intro hexs
    rw [hun, hguard, hexs]
    simp only [Bool.false_eq_true, ite_false, List.append_nil]
    constructor <;>
      exact hasPropertyKey_eq_false_of_shape _ _
        (fun a ha => by
          rcases hdesc a ha with ⟨h1, h2⟩
          first
          | exact h1
          | exact h2)
  · intro e hexs
    rw [hun, hguard, hexs]
    simp only [Bool.false_eq_true, ite_false]
    refine ⟨?_, ?_, ?_⟩
    · rw [hasPropertyKey_append]
      simp [hasPropertyKey]
    · rw [hasPropertyKey_append]
      have h1 : hasPropertyKey "examples"
          (if !hasPropertyKey options.dtoKeyOfComment existing &&
              (checker.getMainCommentAndExamples node).1 != "" then
            [(options.dtoKeyOfComment,
              Expr.strLit (checker.getMainCommentAndExamples node).1)]
           else []) = false :=
        hasPropertyKey_eq_false_of_shape _ _ (fun a ha => (hdesc a ha).2)
      rw [h1]
      simp [hasPropertyKey]
    · exact recordValue_append_single _ "example" _
  · intro e1 e2 rest hexs
    rw [hun, hguard, hexs]
    simp only [Bool.false_eq_true, ite_false]
    refine ⟨?_, ?_, ?_⟩
    · rw [hasPropertyKey_append]
      simp [hasPropertyKey]
    · rw [hasPropertyKey_append]
      have h1 : hasPropertyKey "example"
          (if !hasPropertyKey options.dtoKeyOfComment existing &&
              (checker.getMainCommentAndExamples node).1 != "" then
            [(options.dtoKeyOfComment,
              Expr.strLit (checker.getMainCommentAndExamples node).1)]
           else []) = false :=
        hasPropertyKey_eq_false_of_shape _ _ (fun a ha => (hdesc a ha).1)
      rw [h1]
      simp [hasPropertyKey]
    · exact recordValue_append_single _ "examples" _
  · intro ⟨hA, hB⟩
    have hexcl : hasPropertyKey "example"
        (createDescriptionAndExamplePropertyAssigments checker node existing
          options true) = false ∨
        hasPropertyKey "examples"
          (createDescriptionAndExamplePropertyAssigments checker node
            existing options true) = false := by
      rw [hun, hguard]
      simp only [Bool.false_eq_true, ite_false]
      cases hexs : (checker.getMainCommentAndExamples node).2 with
      | nil =>
        refine .inl ?_
        rw [hasPropertyKey_append]
        have h1 := hasPropertyKey_eq_false_of_shape "example" _
          (fun a ha => (hdesc a ha).1)
        rw [h1]
        simp [hasPropertyKey]
      | cons x xs =>
        cases xs with
        | nil =>
          refine .inr ?_
          rw [hasPropertyKey_append]
          have h1 := hasPropertyKey_eq_false_of_shape "examples" _
            (fun a ha => (hdesc a ha).2)
          rw [h1]
          simp [hasPropertyKey]
        | cons y ys =>
          refine .inl ?_
          rw [hasPropertyKey_append]
          have h1 := hasPropertyKey_eq_false_of_shape "example" _
            (fun a ha => (hdesc a ha).1)
          rw [h1]
          simp [hasPropertyKey]
    have hother : ∀ K, K = "example" ∨ K = "examples" →
        hasPropertyKey K (createDecoratorObjectLiteralExpr checker node
          existing options host true) =
        hasPropertyKey K (createDescriptionAndExamplePropertyAssigments
          checker node existing options true) := by
      intro K hK
      rw [objLit_parts checker node existing options host true]
      rw [hasPropertyKey_append, hasPropertyKey_append,
        hasPropertyKey_append, hasPropertyKey_append, hasPropertyKey_append,
        hasPropertyKey_append]
      have hKx : hasPropertyKey K existing = false := by
        rcases hK with h | h <;> rw [h]
        · exact hx1
        · exact hx2
      have hreq : hasPropertyKey K (if hasPropertyKey "required" existing
          then ([] : List (String × Expr))
          else [("required", Expr.boolLit (!node.questionToken))]) =
          false := by
        refine hasPropertyKey_eq_false_of_shape _ _ (fun a ha => ?_)
        split at ha
        · simp at ha
        · simp at ha
          rcases hK with h | h <;> rw [h] <;> simp [ha]
      have htyp : hasPropertyKey K (createTypePropertyAssignments checker
          node.type existing host) = false := by
        refine hasPropertyKey_eq_false_of_shape _ _ (fun a ha => ?_)
        rcases typeAssignments_key_shape checker node.type existing host a ha
          with h1 | h1 <;> rcases hK with h | h <;> rw [h, h1] <;> decide
      have hdef : hasPropertyKey K ((createDefaultPropertyAssignment node
          existing).toList) = false := by
        refine hasPropertyKey_eq_false_of_shape _ _ (fun a ha => ?_)
        rw [defaultAssignment_key_shape node existing a ha]
        rcases hK with h | h <;> rw [h] <;> decide
      have henm : hasPropertyKey K (createEnumPropertyAssignment checker node
          existing host) = false := by
        refine hasPropertyKey_eq_false_of_shape _ _ (fun a ha => ?_)
        rcases (enumAssignment_key_shape checker node existing host a ha).1
          with h1 | h1 <;> rcases hK with h | h <;> rw [h, h1] <;> decide
      have hval : hasPropertyKey K (if options.classValidatorShim then
          createValidationPropertyAssignments node else []) = false := by
        refine hasPropertyKey_eq_false_of_shape _ _ (fun a ha => ?_)
        split at ha
        · rcases validationAssignments_key_shape node a ha
            with h1 | h1 | h1 | h1 <;> rcases hK with h | h <;>
            rw [h, h1] <;> decide
        · simp at ha
      rw [hKx, hreq, htyp, hdef, henm, hval]
      simp
    rw [hother "example" (.inl rfl)] at hA
    rw [hother "examples" (.inr rfl)] at hB
    rcases hexcl with h | h
    · rw [hA] at h
      exact absurd h (by decide)
    · rw [hB] at h
      exact absurd h (by decide)

/-- C7 witness: the cardinality theorem applied to the concrete
documentation checker — property `a` has two examples (an `examples`
sequence), property `b` has one (a single `example`). -/
theorem c7_example_cardinality_witness :
    (docChecker.getMainCommentAndExamples (namedProp "b")).2 = [.str "x"] ∧
    hasPropertyKey "example" (createDescriptionAndExamplePropertyAssigments
      docChecker (namedProp "b") [] ⟨false, true, "description"⟩ true) =
      true ∧
    hasPropertyKey "examples" (createDescriptionAndExamplePropertyAssigments
      docChecker (namedProp "b") [] ⟨false, true, "description"⟩ true) =
      false ∧
    recordValue (createDescriptionAndExamplePropertyAssigments docChecker
      (namedProp "b") [] ⟨false, true, "description"⟩ true) "example" =
      some (Expr.strLit "x") ∧
    hasPropertyKey "examples" (createDescriptionAndExamplePropertyAssigments
      docChecker (namedProp "a") [] ⟨false, true, "description"⟩ true) =
      true ∧
    hasPropertyKey "example" (createDescriptionAndExamplePropertyAssigments
      docChecker (namedProp "a") [] ⟨false, true, "description"⟩ true) =
      false := by
  have hb := (c7_example_cardinality docChecker (namedProp "b") []
    ⟨false, true, "description"⟩ "" rfl (by decide) (by decide) rfl rfl).2.1
    (.str "x") rfl
  have ha := (c7_example_cardinality docChecker (namedProp "a") []
    ⟨false, true, "description"⟩ "" rfl (by decide) (by decide) rfl rfl).2.2.1
    (.num 1) (.num 2) [] rfl
  exact ⟨rfl, hb.1, hb.2.1, hb.2.2, ha.1, ha.2.1⟩

/-! Claim C8: the default extractor. -/

/-- C8: the default extractor contributes nothing when `default` is
already explicit or the property has no initializer; otherwise it
contributes `default = <initializer>` verbatim, except that one
`as`-assertion wrapper is unwrapped to the wrapped expression first. -/
theorem c8_default_extraction (node : PropertyNode)
    (existing : List (String × Expr)) :
    (hasPropertyKey "default" existing = true →
      createDefaultPropertyAssignment node existing = none) ∧
    (node.initializer = none →
      createDefaultPropertyAssignment node existing = none) ∧
    (∀ e, hasPropertyKey "default" existing = false →
      node.initializer = some (.asExpr e) →
      createDefaultPropertyAssignment node existing =
        some ("default", e)) ∧
    (∀ i, hasPropertyKey "default" existing = false →
      node.initializer = some i → (∀ e, i ≠ .asExpr e) →
      createDefaultPropertyAssignment node existing =
        some ("default", i)) := by
  refine ⟨?_, ?_, ?_, ?_⟩
  · exact defaultAssignment_of_hasKey node existing
  · intro h
    unfold createDefaultPropertyAssignment
    split
    · rfl
    · rw [h]
  · intro e hkey hinit
    unfold createDefaultPropertyAssignment
    rw [hkey, hinit]
    simp
  · intro i hkey hinit hnot
    unfold createDefaultPropertyAssignment
    rw [hkey, hinit]
    cases i with
    | asExpr e => exact absurd rfl (hnot e)
    | ident s => rfl
    | boolLit b => rfl
    | strLit s => rfl
    | numLit n => rfl
    | arrayLit es => rfl
    | arrow b => rfl
    | objectLit ps => rfl
    | raw n => rfl

/-- A property `count` whose initializer is `5 as const` (a type-assertion
wrapper around the literal `5`). -/
def assertedDefaultProp : PropertyNode :=
  .mk ⟨"count", false⟩ false none (some (.asExpr (.numLit 5))) []

/-- C8 witness: the extraction theorem applied to the concrete property
with the asserted initializer, and to the same property with an explicit
`default` key. -/
theorem c8_default_extraction_witness :
    assertedDefaultProp.initializer = some (.asExpr (.numLit 5)) ∧
    createDefaultPropertyAssignment assertedDefaultProp [] =
      some ("default", Expr.numLit 5) ∧
    createDefaultPropertyAssignment assertedDefaultProp
      [("default", Expr.raw 0)] = none :=
  ⟨rfl,
   (c8_default_extraction assertedDefaultProp []).2.2.1 (.numLit 5)
     (by decide) rfl,
   (c8_default_extraction assertedDefaultProp
     [("default", Expr.raw 0)]).1 (by decide)⟩

/-! Claim C10: nested inline type-literal schemas. -/

/-- A literal-schema member `m: T | null`, used to show that the
`nullable` companion assignment is not suppressed by an outer explicit
`nullable` key. -/
def nullableMember : PropertyNode :=
  .mk ⟨"m", false⟩ false
    (some (.unionType [.other 5 "T", .nullKeyword] "T | null")) none []

/-- C10 counterexample: the claim "any key explicit on the outer property
is suppressed from inference in every nested member" fails for `nullable`
(and `isArray`), which are appended without a presence check.  With outer
explicit `nullable: false` and a literal schema `{ m: T | null }`, the
nested member's record — seeded with the outer explicit assignments, as
the claim says — still receives the inferred `nullable: true` from the
union branch, appended after the explicit one, so the nested record
evaluates `nullable` to `true`, not the explicit `false`. -/
theorem c10_counterexample :
    createTypePropertyAssignments unionChecker
      (some (.typeLiteral [nullableMember] "{ m: T | null }"))
      [("nullable", Expr.boolLit false)] "main.ts" =
      [("type", Expr.arrow (Expr.objectLit [("m", Expr.objectLit
        (createDecoratorObjectLiteralExpr unionChecker nullableMember
          [("nullable", Expr.boolLit false)] {} "main.ts" false))]))] ∧
    createDecoratorObjectLiteralExpr unionChecker nullableMember
      [("nullable", Expr.boolLit false)] {} "main.ts" false =
      [("nullable", Expr.boolLit false), ("required", Expr.boolLit true),
       ("type", Expr.arrow (Expr.ident "T")),
       ("nullable", Expr.boolLit true)] ∧
    recordValue (createDecoratorObjectLiteralExpr unionChecker
      nullableMember [("nullable", Expr.boolLit false)] {} "main.ts" false)
      "nullable" = some (Expr.boolLit true) ∧
    recordValue [("nullable", Expr.boolLit false)] "nullable" =
      some (Expr.boolLit false) := by
  have houter : createTypePropertyAssignments unionChecker
      (some (.typeLiteral [nullableMember] "{ m: T | null }"))
      [("nullable", Expr.boolLit false)] "main.ts" =
      [("type", Expr.arrow (Expr.objectLit [("m", Expr.objectLit
        (createDecoratorObjectLiteralExpr unionChecker nullableMember
          [("nullable", Expr.boolLit false)] {} "main.ts" false))]))] := by
    rw [typeAssignments_literal unionChecker [nullableMember] "{ m: T | null }"
      [("nullable", Expr.boolLit false)] "main.ts" (by decide)]
    rw [mapTypeLiteralMembers_eq_map]
    simp [nullableMember, PropertyNode.name]
  have hpair := @remainingUnionTypes_pair (.other 5 "T") (.nullKeyword)
    (by decide) (by decide)
  have hunion : createTypePropertyAssignments unionChecker
      (some (.unionType [.other 5 "T", .nullKeyword] "T | null"))
      [("nullable", Expr.boolLit false)] "main.ts" =
      [("type", Expr.arrow (Expr.ident "T")),
       ("nullable", Expr.boolLit true)] := by
    rw [typeAssignments_union_single unionChecker
      [.other 5 "T", .nullKeyword] (.other 5 "T") "T | null"
      [("nullable", Expr.boolLit false)] "main.ts" (by decide) hpair.1]
    rw [typeAssignments_other unionChecker 5 "T"
      [("nullable", Expr.boolLit false)] "main.ts" (by decide)]
    unfold fallbackTypeReference
    simp [unionChecker, hpair.2.2.1, isNullLikeTypeNode, TypeNode.getText]
  have hnested : createDecoratorObjectLiteralExpr unionChecker nullableMember
      [("nullable", Expr.boolLit false)] {} "main.ts" false =
      [("nullable", Expr.boolLit false), ("required", Expr.boolLit true),
       ("type", Expr.arrow (Expr.ident "T")),
       ("nullable", Expr.boolLit true)] := by
    rw [objLit_parts unionChecker nullableMember
      [("nullable", Expr.boolLit false)] {} "main.ts" false]
    rw [show nullableMember.type =
      some (.unionType [.other 5 "T", .nullKeyword] "T | null") from rfl]
    rw [hunion]
    simp [nullableMember, PropertyNode.questionToken,
      PropertyNode.initializer, PropertyNode.decorators, hasPropertyKey,
      createDescriptionAndExamplePropertyAssigments,
      createDefaultPropertyAssignment, createEnumPropertyAssignment,
      unionChecker]
  refine ⟨houter, hnested, ?_, ?_⟩
  · rw [hnested]
    simp [recordValue]
  · simp [recordValue]

/-- C10 (amended): when the type resolver builds the nested object literal
for an inline type-literal schema, every member is resolved by the full
pipeline with the OUTER property's existing keys, an empty options object
and no source file.  Consequently (a) the documentation enricher
contributes nothing for nested members, (b) the nested record consists
only of the seeded keys plus the required/type/default/enum contributions
— the validation extractor is never consulted — and (c) any key explicit
on the outer property OTHER than `nullable` and `isArray` is suppressed
from inference in every nested member (and, since each nested call passes
the same existing keys down again, at every nesting depth); `nullable` and
`isArray` can still be inferred into a nested record despite being
explicit on the outer property — see the counterexample. -/
theorem c10_nested_literal_context {Ty : Type} (checker : Checker Ty)
    (members : List PropertyNode) (txt : String)
    (existing : List (String × Expr)) (host : String)
    (hkey : hasPropertyKey "type" existing = false) :
    createTypePropertyAssignments checker (some (.typeLiteral members txt))
      existing host =
      [("type", Expr.arrow (Expr.objectLit (members.map (fun m =>
        (m.name.text, Expr.objectLit (createDecoratorObjectLiteralExpr
          checker m existing {} host false))))))] ∧
    (∀ (m : PropertyNode) (ex : List (String × Expr)),
      createDescriptionAndExamplePropertyAssigments checker m ex
        ({} : PluginOptions) false = []) ∧
    (∀ (m : PropertyNode) (ex : List (String × Expr)),
      createDecoratorObjectLiteralExpr checker m ex {} host false =
        ex ++ ((if hasPropertyKey "required" ex then []
                else [("required", Expr.boolLit (!m.questionToken))]) ++
          createTypePropertyAssignments checker m.type ex host ++
          (createDefaultPropertyAssignment m ex).toList ++
          createEnumPropertyAssignment checker m ex host)) ∧
    (∀ K, K ≠ "nullable" → K ≠ "isArray" →
      hasPropertyKey K existing = true →
      ∀ m ∈ members, ∃ rest,
        createDecoratorObjectLiteralExpr checker m existing {} host false =
          existing ++ rest ∧
        ∀ a ∈ rest, a.1 ≠ K) := by
  have hdoc : ∀ (m : PropertyNode) (ex : List (String × Expr)),
      createDescriptionAndExamplePropertyAssigments checker m ex
        ({} : PluginOptions) false = [] := by
    intro m ex
    unfold createDescriptionAndExamplePropertyAssigments
    simp
  refine ⟨?_, hdoc, ?_, ?_⟩
  · rw [typeAssignments_literal checker members txt existing host hkey]
    rw [mapTypeLiteralMembers_eq_map]
  · intro m ex
    rw [objLit_parts checker m ex {} host false]
    rw [hdoc m ex]
    simp
  · intro K hK1 hK2 hmem m _
    exact ⟨_, objLit_parts checker m existing {} host false,
      rest_no_guarded_key_of_noShim checker m existing {} host false K rfl
        hK1 hK2 hmem⟩

/-- C10 witness: the nested-context theorem applied to a concrete literal
schema `{ q }` under a property whose explicit keys contain `default`. -/
theorem c10_nested_literal_context_witness :
    createTypePropertyAssignments trivialChecker
      (some (.typeLiteral [namedProp "q"] "{ q }"))
      [("default", Expr.raw 1)] "" =
      [("type", Expr.arrow (Expr.objectLit [("q", Expr.objectLit
        (createDecoratorObjectLiteralExpr trivialChecker (namedProp "q")
          [("default", Expr.raw 1)] {} "" false))]))] ∧
    createDescriptionAndExamplePropertyAssigments trivialChecker
      (namedProp "q") [("default", Expr.raw 1)] ({} : PluginOptions)
      false = [] ∧
    (∃ rest,
      createDecoratorObjectLiteralExpr trivialChecker (namedProp "q")
        [("default", Expr.raw 1)] {} "" false =
        [("default", Expr.raw 1)] ++ rest ∧
      ∀ a ∈ rest, a.1 ≠ "default") := by
  have h := c10_nested_literal_context trivialChecker [namedProp "q"]
    "{ q }" [("default", Expr.raw 1)] "" (by decide)
  refine ⟨?_, h.2.1 (namedProp "q") [("default", Expr.raw 1)], ?_⟩
  · rw [h.1]
    simp [namedProp, PropertyNode.name]
  · exact h.2.2.2 "default" (by decide) (by decide) (by decide)
      (namedProp "q") (by simp)

end SwaggerPlugin
